import Mathlib

/-!
Verification of plgd-dev/sdk: certificate identity verification, retries and
disowning. A shallow embedding of

* `local/coapClient.go`: `VerifyIndetityCertificate` and the
  `VerifyPeerCertificate` callback installed by `DialTcpTls`;
* `local/getResourceLinks.go`: `operationWithRetries`, `deviceDiscoveryHandler`
  and `Device.findBestClient`;
* `local/core/disownDevice.go`: `connectionWasClosed` and `Device.Disown`;
* `local/getDevices.go`: `discoveryHandler.Handle`;
* `local/resource/udpClient.go`: `createUDPConnection`;
* `local/coapClient.go`: `CoapClient.GetDeviceLinks`.

Go values of type `error` are `Option GoError`, `none` being `nil`.
Go strings are Lean strings, read rune by rune through `String.toList`.
-/

namespace Sdk

/-! ## Errors -/

/-- Status codes of the SDK error taxonomy used by `core.MakePermissionDenied`
and `core.MakeInternal`. -/
inductive Code where
  | PermissionDenied
  | Internal
  deriving DecidableEq, Repr

/-- Go error values.
* `errorString s`: `errors.New(s)` and `fmt.Errorf` without a wrapping verb;
* `wrapError msg err`: `fmt.Errorf` with one wrapping verb, `Error()` is `msg`
  and `Unwrap()` is `err`;
* `Canceled`, `DeadlineExceeded`: the sentinels of package `context`;
* `sdkError code err`: an error of package `core` carrying a status code. -/
inductive GoError where
  | errorString (s : String)
  | wrapError (msg : String) (err : GoError)
  | Canceled
  | DeadlineExceeded
  | sdkError (code : Code) (wrapped : GoError)
  deriving DecidableEq, Repr

namespace GoError

/-- The method `Error()`: the text of an error. -/
def Error : GoError → String
  | errorString s => s
  | wrapError msg _ => msg
  | Canceled => "context canceled"
  | DeadlineExceeded => "context deadline exceeded"
  | sdkError _ wrapped => wrapped.Error

/-- The call `errors.Is(err, context.Canceled)`: follows the `Unwrap` chain. -/
def IsCanceled : GoError → Bool
  | errorString _ => false
  | wrapError _ err => err.IsCanceled
  | Canceled => true
  | DeadlineExceeded => false
  | sdkError _ wrapped => wrapped.IsCanceled

/-- The status code an error is classified with, if it carries one. -/
def code? : GoError → Option Code
  | sdkError code _ => some code
  | _ => none

end GoError

/-! ## Standard-library string functions used by the verifier -/

/-- The call `strings.Split(s, sep)` for a separator of one rune. -/
def strings_Split (s : String) (sep : Char) : List String :=
  (s.toList.splitOn sep).map String.mk

/-- The function `unicode.ToLower`: the ASCII range is mapped by the code,
every other rune through the Unicode case table `lowerCase`. -/
def unicode_ToLower (lowerCase : Char → Char) (r : Char) : Char :=
  if r.toNat ≤ 0x7F then
    if 'A'.toNat ≤ r.toNat ∧ r.toNat ≤ 'Z'.toNat then Char.ofNat (r.toNat + ('a'.toNat - 'A'.toNat))
    else r
  else lowerCase r

/-- The function `strings.ToLower`: `unicode.ToLower` rune by rune. -/
def strings_ToLower (lowerCase : Char → Char) (s : String) : String :=
  String.mk (s.toList.map (unicode_ToLower lowerCase))

/-! ## Certificates -/

/-- The type `x509.ExtKeyUsage`, an `int`. -/
abbrev ExtKeyUsage := Int

/-- The constant `x509.ExtKeyUsageAny`. -/
def ExtKeyUsageAny : ExtKeyUsage := 0
/-- The constant `x509.ExtKeyUsageServerAuth`. -/
def ExtKeyUsageServerAuth : ExtKeyUsage := 1
/-- The constant `x509.ExtKeyUsageClientAuth`. -/
def ExtKeyUsageClientAuth : ExtKeyUsage := 2

/-- The type `asn1.ObjectIdentifier`, a slice of `int`; its method `Equal` is
equality of the two slices. -/
abbrev ObjectIdentifier := List Int

/-- The type `pkix.Name`, of which only the common name is read. -/
structure Name where
  CommonName : String
  deriving DecidableEq, Repr

/-- The fields of `x509.Certificate` that the verifier reads. -/
structure Certificate where
  ExtKeyUsage : List ExtKeyUsage
  UnknownExtKeyUsage : List ObjectIdentifier
  Subject : Name
  deriving DecidableEq, Repr

/-- What `VerifyIndetityCertificate` takes from outside `src/`: the Unicode
lower-case table behind `strings.ToLower`, the parser `uuid.FromString` of
`github.com/gofrs/uuid` (its error result), and the package constant
`ekuOcfId`. -/
structure Externals where
  lowerCase : Char → Char
  uuidFromString : String → Option GoError
  ekuOcfId : ObjectIdentifier

/-- The first loop of `VerifyIndetityCertificate`: one pass over
`cert.ExtKeyUsage` setting `(ekuHasClient, ekuHasServer)`. -/
def ekuFlags (ekus : List ExtKeyUsage) : Bool × Bool :=
  ekus.foldl
    (fun acc eku =>
      let c := if eku = ExtKeyUsageClientAuth then true else acc.1
      let s := if eku = ExtKeyUsageServerAuth then true else acc.2
      (c, s))
    (false, false)

/-- The second loop of `VerifyIndetityCertificate`: stops at the first
element equal to `ekuOcfId`. -/
def ekuHasOcfId (ekuOcfId : ObjectIdentifier) : List ObjectIdentifier → Bool
  | [] => false
  | eku :: rest => if eku = ekuOcfId then true else ekuHasOcfId ekuOcfId rest

/-- The function `VerifyIndetityCertificate` of `local/coapClient.go`. -/
def VerifyIndetityCertificate (X : Externals) (cert : Certificate) : Option GoError :=
  let flags := ekuFlags cert.ExtKeyUsage
  if !flags.1 then
    some (.errorString "not contains ExtKeyUsageClientAuth")
  else if !flags.2 then
    some (.errorString "not contains ExtKeyUsageServerAuth")
  else if !ekuHasOcfId X.ekuOcfId cert.UnknownExtKeyUsage then
    some (.errorString "not contains ExtKeyUsage with OCF ID(1.3.6.1.4.1.44924.1.6")
  else
    match strings_Split cert.Subject.CommonName ':' with
    | [cn0, cn1] =>
      if strings_ToLower X.lowerCase cn0 ≠ "uuid" then
        some (.errorString
          ("invalid subject common name " ++ cert.Subject.CommonName ++ ": 'uuid' - not found"))
      else
        match X.uuidFromString cn1 with
        | some err =>
          some (.errorString
            ("invalid subject common name " ++ cert.Subject.CommonName ++ ": " ++ err.Error))
        | none => none
    | _ => some (.errorString ("invalid subject common name: " ++ cert.Subject.CommonName))

/-- The `VerifyPeerCertificate` callback that `DialTcpTls` installs in its
`tls.Config`. `parseCertificate` is `x509.ParseCertificate`, `verify` is
`cert.Verify` against the pool built from `cas` (its error result), and
`verifyPeerCertificate` is the identity verifier handed to `DialTcpTls`.
In the third branch the value returned is the variable `err`, which at that
point holds the result of `cert.Verify`. -/
def DialTcpTls_VerifyPeerCertificate {Raw : Type}
    (parseCertificate : Raw → Except GoError Certificate)
    (verify : Certificate → Option GoError)
    (verifyPeerCertificate : Certificate → Option GoError) :
    List Raw → Option GoError
  | [] => none
  | rawCert :: rest =>
    match parseCertificate rawCert with
    | .error err => some err
    | .ok cert =>
      let err := verify cert
      if err ≠ none then err
      else if verifyPeerCertificate cert ≠ none then err
      else DialTcpTls_VerifyPeerCertificate parseCertificate verify verifyPeerCertificate rest

/-! ## The retry orchestrator -/

/-- A `context.Context` as `operationWithRetries` observes it: `doneAt` is the
instant (in nanoseconds) at which the channel `Done()` is closed, `none` when
it never is; `err` is what `Err()` returns from that instant on. -/
structure Context where
  doneAt : Option Int
  err : GoError
  deriving DecidableEq, Repr

/-- The method `Err()` at the instant `now`: nil until `Done()` is closed. -/
def Context.Err (ctx : Context) (now : Int) : Option GoError :=
  match ctx.doneAt with
  | some d => if d ≤ now then some ctx.err else none
  | none => none

/-- The call `context.WithTimeout(parent, timeout)` made at the instant `now`:
the child is done when the parent is, or at its own deadline if that comes
first. -/
def WithTimeout (parent : Context) (now : Int) (timeout : Int) : Context :=
  match parent.doneAt with
  | some d => if d ≤ now + timeout then parent else ⟨some (now + timeout), .DeadlineExceeded⟩
  | none => ⟨some (now + timeout), .DeadlineExceeded⟩

/-- The closure `op`, called in sequence: from the number of earlier calls, the
context and the instant of the call, its error result and the time it took. -/
abbrev Operation := Nat → Context → Int → Option GoError × Nat

/-- The closure returned by the retry factory, called in sequence: from the
number of earlier calls and the instant of the call, the pair `(when, err)`. -/
abbrev RetryFunc := Nat → Int → Int × Option GoError

/-- The type `RetryFuncFactory`. -/
abbrev RetryFuncFactory := Unit → RetryFunc

/-- What a run of `operationWithRetries` calls, in order: the retry factory,
`op` (with the error it returned), the retry closure, and `time.After` (with
its argument). -/
inductive Call where
  | retryFuncFactory
  | op (opErr : Option GoError)
  | rf
  | timeAfter (sleep : Int)
  deriving DecidableEq, Repr

/-- Whether a call is an invocation of `op`. -/
def Call.isOp : Call → Bool
  | .op _ => true
  | _ => false

/-- Whether a call is a consultation of the retry closure. -/
def Call.isRf : Call → Bool
  | .rf => true
  | _ => false

/-- Whether a call is a call of the retry factory. -/
def Call.isFactory : Call → Bool
  | .retryFuncFactory => true
  | _ => false

/-- Whether a call is a `time.After`, the start of a backoff wait. -/
def Call.isTimeAfter : Call → Bool
  | .timeAfter _ => true
  | _ => false

/-- The errors returned by the invocations of `op`, in order. -/
def opResults (trace : List Call) : List (Option GoError) :=
  trace.filterMap fun c =>
    match c with
    | .op e => some e
    | _ => none

/-- The `select` of `operationWithRetries`, entered with the timer of
`time.After` due at the instant `when`, which is later than the instant of
entry: `true` when the case `<-parentCtx.Done()` is taken. It is taken when
the parent is done before the timer is due (already on entry, or during the
wait); `tie` decides when both channels become ready at the same instant. -/
def selectDone (parentCtx : Context) (when : Int) (tie : Bool) : Bool :=
  match parentCtx.doneAt with
  | none => false
  | some d => if d < when then true else if d = when then tie else false

/-- The result of a run that returned: the error and the calls made. -/
structure Run where
  err : Option GoError
  trace : List Call
  deriving DecidableEq, Repr

/-- The `for` loop of `operationWithRetries`, entered for the attempt number
`attempt` at the instant `now` after the calls `trace`; `fuel` bounds the
number of iterations, and `none` means the bound was reached. Every earlier
iteration has called `op` once and the retry closure once, so `attempt` is
the number of earlier calls of either. A wait that the timer ends leaves the
clock at the instant `when`. -/
def operationWithRetries_loop (parentCtx : Context) (operationTimeout : Int) (op : Operation)
    (rf : RetryFunc) (tie : Nat → Bool) :
    (fuel : Nat) → (attempt : Nat) → (now : Int) → (trace : List Call) → Option Run
  | 0, _, _, _ => none
  | fuel + 1, attempt, now, trace =>
    let ctx := WithTimeout parentCtx now operationTimeout
    let r := op attempt ctx now
    let opErr := r.1
    let now := now + r.2
    let trace := trace ++ [.op opErr]
    match opErr with
    | none => some ⟨none, trace⟩
    | some opErr =>
      let a := rf attempt now
      let trace := trace ++ [.rf]
      match a.2 with
      | some err => some ⟨some (.errorString (err.Error ++ ": " ++ opErr.Error)), trace⟩
      | none =>
        let sleep := a.1 - now
        if sleep > 0 then
          let trace := trace ++ [.timeAfter sleep]
          if selectDone parentCtx a.1 (tie attempt) then
            some ⟨some parentCtx.err, trace⟩
          else
            operationWithRetries_loop parentCtx operationTimeout op rf tie fuel (attempt + 1) a.1
              trace
        else
          operationWithRetries_loop parentCtx operationTimeout op rf tie fuel (attempt + 1) now
            trace

/-- The function `operationWithRetries` of `local/getResourceLinks.go`, called
at the instant `now`. -/
def operationWithRetries (parentCtx : Context) (retryFuncFactory : RetryFuncFactory)
    (operationTimeout : Int) (op : Operation) (tie : Nat → Bool) (fuel : Nat) (now : Int) :
    Option Run :=
  let rf := retryFuncFactory ()
  operationWithRetries_loop parentCtx operationTimeout op rf tie fuel 0 now [.retryFuncFactory]

/-- Whether the text of `part` occurs in the text `text`. -/
def textContains (text part : String) : Prop :=
  part.toList <:+: text.toList

/-! ## Disowning a device -/

/-- The text of `uuid.Nil.String()`. -/
def uuidNilString : String := "00000000-0000-0000-0000-000000000000"

/-- The transport schemes of an endpoint address. -/
inductive Scheme where
  | UDPScheme
  | UDPSecureScheme
  | TCPScheme
  | TCPSecureScheme
  deriving DecidableEq, Repr

/-- The type `schema.Endpoint`. -/
structure Endpoint where
  URI : String
  Priority : Nat
  deriving DecidableEq, Repr

/-- The fields of `schema.ResourceLink` read here. -/
structure ResourceLink where
  Href : String
  ResourceTypes : List String
  Endpoints : List Endpoint
  deriving DecidableEq, Repr

/-- The type `schema.ResourceLinks`. -/
abbrev ResourceLinks := List ResourceLink

/-- The ownership resource as `Disown` reads it. -/
structure Ownership where
  OwnerID : String
  deriving DecidableEq, Repr

/-- The operational states of the provisioning resource. -/
inductive OperationalState where
  | RESET
  | RFOTM
  | RFPRO
  | RFNOP
  | SRESET
  deriving DecidableEq, Repr

/-- The type `schema.DeviceOnboardingState`. -/
structure DeviceOnboardingState where
  CurrentOrPendingOperationalState : OperationalState
  deriving DecidableEq, Repr

/-- The type `schema.ProvisionStatusUpdateRequest`. -/
structure ProvisionStatusUpdateRequest where
  DeviceOnboardingState : Option DeviceOnboardingState
  deriving DecidableEq, Repr

/-- Modelled from the spec: `MakePermissionDenied` is not in `src/`; it
classifies an error as permission-denied (the identity mismatch of the error
taxonomy) and keeps the error it is given. -/
def MakePermissionDenied (err : GoError) : GoError :=
  .sdkError .PermissionDenied err

/-- Modelled from the spec: `MakeInternal` is not in `src/`; it classifies an
error as internal and keeps the error it is given. -/
def MakeInternal (err : GoError) : GoError :=
  .sdkError .Internal err

/-- Modelled from the spec: `GetResourceLink` is not in `src/`; it yields the
link of the given href, an error when the links hold none. The text of that
error is not given by the spec. -/
def GetResourceLink (links : ResourceLinks) (href : String) : Except GoError ResourceLink :=
  match links.find? (fun l => l.Href == href) with
  | some link => .ok link
  | none => .error (.errorString ("resource link not found: " ++ href))

/-- Modelled from the spec: `FilterSecureEndpoints` is not in `src/`; it keeps
the endpoints over a secured transport and filters the others out.
`schemeOf` reads the scheme of an endpoint address, `none` when the address
does not parse. -/
def FilterSecureEndpoints (schemeOf : String → Option Scheme) (eps : List Endpoint) :
    List Endpoint :=
  eps.filter fun ep =>
    match schemeOf ep.URI with
    | some .TCPSecureScheme => true
    | some .UDPSecureScheme => true
    | _ => false

/-- The collaborators of `Device.Disown` that are not in `src/`: the read of
the ownership resource, the identity of the SDK, the write of a resource
(its error result), and the scheme of an endpoint address. -/
structure Device where
  GetOwnership : ResourceLinks → Except GoError Ownership
  GetSdkOwnerID : Except GoError String
  UpdateResource : ResourceLink → ProvisionStatusUpdateRequest → Option GoError
  schemeOf : String → Option Scheme

/-- What `Disown` does to the outside: a write through `UpdateResource`, a
call of the error sink `errFunc`. -/
inductive Effect where
  | UpdateResource (link : ResourceLink) (request : ProvisionStatusUpdateRequest)
  | errFunc (err : GoError)
  deriving DecidableEq, Repr

/-- The function `connectionWasClosed` of `local/core/disownDevice.go`; the
context is given by the value `ctxErr` of `ctx.Err()` at the call. -/
def connectionWasClosed (ctxErr : Option GoError) (err : GoError) : Bool :=
  if ctxErr = none ∧ err.IsCanceled = true then true
  else false

/-- The format `cannot disown: %w` applied to an error. -/
def disownErr (err : GoError) : GoError :=
  .wrapError ("cannot disown: " ++ err.Error) err

/-- The method `Device.Disown` of `local/core/disownDevice.go`: the error it
returns and the effects it has, in order. The context is given by the value
`ctxErr` of `ctx.Err()` after the write. -/
def Device.Disown (d : Device) (ctxErr : Option GoError) (links : ResourceLinks) :
    Option GoError × List Effect :=
  match d.GetOwnership links with
  | .error err => (some (disownErr err), [])
  | .ok ownership =>
    match d.GetSdkOwnerID with
    | .error err => (some (disownErr err), [])
    | .ok sdkID =>
      if ownership.OwnerID ≠ sdkID then
        if ownership.OwnerID = uuidNilString then (none, [])
        else
          (some (MakePermissionDenied (disownErr (.errorString
            ("device is owned by " ++ ownership.OwnerID ++ ", not by " ++ sdkID)))), [])
      else
        let setResetProvisionState : ProvisionStatusUpdateRequest :=
          { DeviceOnboardingState := some { CurrentOrPendingOperationalState := .RESET } }
        match GetResourceLink links "/oic/sec/pstat" with
        | .error err => (some (MakeInternal (disownErr err)), [])
        | .ok link =>
          let link := { link with Endpoints := FilterSecureEndpoints d.schemeOf link.Endpoints }
          match d.UpdateResource link setResetProvisionState with
          | some err =>
            if connectionWasClosed ctxErr err then
              (none, [.UpdateResource link setResetProvisionState, .errFunc (disownErr err)])
            else
              (some (MakeInternal (disownErr err)), [.UpdateResource link setResetProvisionState])
          | none => (none, [.UpdateResource link setResetProvisionState])

/-- Whether an effect is a write through `UpdateResource`. -/
def Effect.isWrite : Effect → Bool
  | .UpdateResource _ _ => true
  | .errFunc _ => false

/-- Whether an effect is a call of the error sink. -/
def Effect.isErrFunc : Effect → Bool
  | .UpdateResource _ _ => false
  | .errFunc _ => true

/-! ## Discovery handlers -/

/-- The type `net.Addr` of the kit: scheme, host and port. -/
structure Addr where
  scheme : String
  hostname : String
  port : Nat
  deriving DecidableEq, Repr

/-- A connection, known by its identity. -/
structure ClientConn where
  id : Nat
  deriving DecidableEq, Repr

/-- The methods of package `schema` that the handlers call and that are not in
`src/`: `link.GetDeviceID()`, `links.PatchEndpoint(addr)` on a list of links,
`link.PatchEndpoint(addr)` on one link, and `Endpoint{URI: key}.GetAddr()`
with its two results. -/
structure SchemaFns where
  GetDeviceID : ResourceLink → String
  PatchEndpoints : ResourceLinks → Addr → ResourceLinks
  PatchEndpoint : ResourceLink → Addr → ResourceLink
  GetAddr : String → Addr × Option GoError

/-- Modelled from the spec: the method `links.GetResourceLink(href)` of
`schema.ResourceLinks` is not in `src/`; it yields the link of the given href
and whether there is one. -/
def ResourceLinks_GetResourceLink (links : ResourceLinks) (href : String) :
    Option ResourceLink :=
  links.find? (fun l => l.Href == href)

/-- Modelled from the spec: `NewDevice` is not in `src/`; a device holds the
configuration, the device ID and the resource types it is created with. -/
structure LocalDevice (Cfg : Type) where
  deviceCfg : Cfg
  deviceID : String
  deviceTypes : List String

/-- Modelled from the spec: the constructor `NewDevice`, see `LocalDevice`. -/
def NewDevice {Cfg : Type} (deviceCfg : Cfg) (deviceID : String) (deviceTypes : List String) :
    LocalDevice Cfg :=
  ⟨deviceCfg, deviceID, deviceTypes⟩

/-- What `discoveryHandler.Handle` calls, in order: `conn.Close()` and the two
callbacks of the caller's `DeviceHandler`. -/
inductive DiscoveryCall (Cfg : Type) where
  | Close
  | Error (err : GoError)
  | Handle (device : LocalDevice Cfg) (deviceLinks : ResourceLinks)

/-- Whether a call is the callback `handler.Error`. -/
def DiscoveryCall.isError {Cfg : Type} : DiscoveryCall Cfg → Bool
  | .Error _ => true
  | _ => false

/-- Whether a call is the callback `handler.Handle`. -/
def DiscoveryCall.isHandle {Cfg : Type} : DiscoveryCall Cfg → Bool
  | .Handle _ _ => true
  | _ => false

/-- The method `discoveryHandler.Handle` of `local/getDevices.go`: the calls it
makes, in order. -/
def discoveryHandler.Handle {Cfg : Type} (S : SchemaFns) (deviceCfg : Cfg)
    (links : ResourceLinks) : List (DiscoveryCall Cfg) :=
  match GetResourceLink links "/oic/d" with
  | .error err => [.Close, .Error err]
  | .ok link =>
    let deviceID := S.GetDeviceID link
    if deviceID = "" then
      [.Close, .Error (.errorString "cannot determine deviceID")]
    else if link.ResourceTypes.length = 0 then
      [.Close, .Error (.errorString
        ("cannot get resource types for " ++ deviceID ++ ": is empty"))]
    else
      let d := NewDevice deviceCfg deviceID link.ResourceTypes
      [.Close, .Handle d links]

/-- A discovery response as `deviceDiscoveryHandler.Handle` receives it: the
result of `net.Parse` on the remote address of the connection, and the
links. -/
structure Response where
  remoteAddr : Except GoError Addr
  links : ResourceLinks

/-- The type `deviceDiscoveryHandler` of `local/getResourceLinks.go`. The
mutex is left out: it makes the calls of `Handle` run one after the other. -/
structure deviceDiscoveryHandler where
  deviceID : String
  links : ResourceLinks
  ok : Bool
  deriving DecidableEq, Repr

/-- The function `newDeviceDiscoveryHandler`. -/
def newDeviceDiscoveryHandler (deviceID : String) : deviceDiscoveryHandler :=
  { deviceID := deviceID, links := [], ok := false }

/-- The method `deviceDiscoveryHandler.ResourceLinks`. -/
def deviceDiscoveryHandler.ResourceLinks (h : deviceDiscoveryHandler) : ResourceLinks × Bool :=
  (h.links, h.ok)

/-- The method `deviceDiscoveryHandler.Handle`: the handler after the call, and
whether the call invoked `h.cancel()`. -/
def deviceDiscoveryHandler.Handle (S : SchemaFns) (h : deviceDiscoveryHandler) (r : Response) :
    deviceDiscoveryHandler × Bool :=
  match r.remoteAddr with
  | .error _ => (h, false)
  | .ok addr =>
    match ResourceLinks_GetResourceLink r.links "/oic/d" with
    | none => (h, false)
    | some link =>
      if h.ok ∨ S.GetDeviceID link ≠ h.deviceID then (h, false)
      else ({ h with links := S.PatchEndpoints r.links addr, ok := true }, true)

/-- A sequence of responses delivered to one handler: the handler after the
last call, and the number of invocations of `h.cancel()`. -/
def deviceDiscoveryHandler.deliver (S : SchemaFns) :
    deviceDiscoveryHandler × Nat → List Response → deviceDiscoveryHandler × Nat
  | st, [] => st
  | (h, cancels), r :: rest =>
    let res := deviceDiscoveryHandler.Handle S h r
    deviceDiscoveryHandler.deliver S (res.1, if res.2 then cancels + 1 else cancels) rest

/-- Whether a response is one for the device `deviceID`: its remote address
parses and its link `/oic/d` carries that device ID. -/
def Response.isFor (S : SchemaFns) (deviceID : String) (r : Response) : Bool :=
  match r.remoteAddr, ResourceLinks_GetResourceLink r.links "/oic/d" with
  | .ok _, some link => S.GetDeviceID link = deviceID
  | _, _ => false

/-! ## The connection pool -/

/-- Modelled from the spec: the type `coap.Pool` is not in `src/`; the pool is
a map from address to connection. -/
abbrev Pool := Addr → Option ClientConn

/-- Modelled from the spec: the method `Pool.Put`, which stores a connection
under an address. -/
def Pool.Put (p : Pool) (a : Addr) (c : ClientConn) : Pool :=
  fun b => if b = a then some c else p b

/-- Modelled from the spec: the method `Pool.Delete`, which removes the entry
of an address. -/
def Pool.Delete (p : Pool) (a : Addr) : Pool :=
  fun b => if b = a then none else p b

/-- The closure `closeSession` of `createUDPConnection`, set as the
`NotifySessionEndFunc` of the client that dials: called with the error that
ended the session, on the pool as it is then. -/
def createUDPConnection_closeSession (a : Addr) (_err : Option GoError) (p : Pool) : Pool :=
  p.Delete a

/-- The function `createUDPConnection` of `local/resource/udpClient.go`: its
error result and the pool after the call. `dial` is `client.DialWithContext`
on the text of the address. -/
def createUDPConnection (dial : Addr → Except GoError ClientConn) (p : Pool) (a : Addr) :
    Option GoError × Pool :=
  match dial a with
  | .error err => (some err, p)
  | .ok c => (none, p.Put a c)

/-! ## Device links over one connection, and the best connection of a device -/

/-- The type `schema.DeviceLinks`. -/
structure DeviceLinks where
  ID : String
  Links : List ResourceLink
  deriving DecidableEq, Repr

/-- The first loop of `CoapClient.GetDeviceLinks`: every element whose ID is
the one asked for is assigned to `device`, which starts as the zero value. -/
def GetDeviceLinks_select (deviceID : String) (devices : List DeviceLinks) : DeviceLinks :=
  devices.foldl (fun device d => if d.ID = deviceID then d else device) ⟨"", []⟩

/-- The second loop of `CoapClient.GetDeviceLinks`: for every link the remote
address is parsed, and the link patched with it. -/
def GetDeviceLinks_patch (S : SchemaFns) (remoteAddr : Except GoError Addr) (deviceID : String) :
    List ResourceLink → Except GoError (List ResourceLink)
  | [] => .ok []
  | link :: rest =>
    match remoteAddr with
    | .error err =>
      .error (.errorString ("invalid address of device " ++ deviceID ++ ": " ++ err.Error))
    | .ok addr =>
      match GetDeviceLinks_patch S remoteAddr deviceID rest with
      | .error err => .error err
      | .ok links => .ok (S.PatchEndpoint link addr :: links)

/-- The method `CoapClient.GetDeviceLinks` of `local/coapClient.go`: the two
results. `response` is the result of `GetResourceCBOR` on `/oic/res`, the
decoded list or the error; `remoteAddr` is the result of `net.Parse` on the
remote address of the connection. -/
def CoapClient_GetDeviceLinks (S : SchemaFns) (response : Except GoError (List DeviceLinks))
    (remoteAddr : Except GoError Addr) (deviceID : String) : DeviceLinks × Option GoError :=
  match response with
  | .error err => (⟨"", []⟩, some err)
  | .ok devices =>
    let device := GetDeviceLinks_select deviceID devices
    if device.ID ≠ deviceID then
      (device, some (.errorString "cannot get device links: not found"))
    else
      match GetDeviceLinks_patch S remoteAddr device.ID device.Links with
      | .error err => (device, some err)
      | .ok links => ({ device with Links := links }, none)

/-- Modelled from the spec: the constant `schema.TCPSecureScheme`, not in
`src/`: the scheme of a secured TCP endpoint. -/
def schema_TCPSecureScheme : String := "coaps+tcp"

/-- Modelled from the spec: the constant `schema.UDPSecureScheme`, not in
`src/`: the scheme of a secured UDP endpoint. -/
def schema_UDPSecureScheme : String := "coaps"

/-- The loop of `Device.findBestClient` over the entries of `d.conn` in the
order of the iteration, with the variables `addr` and `client` as they stand;
then the end of the function. The results are the address, the connection
(`none` for nil) and the error. -/
def findBestClient_loop (S : SchemaFns) :
    List (String × ClientConn) → Addr → Option ClientConn →
      Addr × Option ClientConn × Option GoError
  | [], addr, client =>
    match client with
    | none => (addr, none, some (.errorString "cannot find connection to device"))
    | some c => (addr, some c, none)
  | (key, conn) :: rest, _, client =>
    let r := S.GetAddr key
    let addr := r.1
    if r.2 ≠ none then findBestClient_loop S rest addr client
    else if addr.scheme = schema_TCPSecureScheme then (addr, some conn, none)
    else if addr.scheme = schema_UDPSecureScheme then (addr, some conn, none)
    else findBestClient_loop S rest addr (some conn)

/-- The method `Device.findBestClient` of `local/getResourceLinks.go`, for the
entries of `d.conn` in the order of the iteration. -/
def findBestClient (S : SchemaFns) (conn : List (String × ClientConn)) :
    Addr × Option ClientConn × Option GoError :=
  findBestClient_loop S conn ⟨"", "", 0⟩ none

/-! ## Concrete collaborators, for evaluating the model -/

/-- Whether a rune is a hexadecimal digit. -/
def isHexDigit (c : Char) : Bool :=
  ('0'.toNat ≤ c.toNat && c.toNat ≤ '9'.toNat) ||
  ('a'.toNat ≤ c.toNat && c.toNat ≤ 'f'.toNat) ||
  ('A'.toNat ≤ c.toNat && c.toNat ≤ 'F'.toNat)

/-- Whether a list of runes is a UUID in canonical 8-4-4-4-12 form. -/
def isCanonicalUUID (cs : List Char) : Bool :=
  match cs.splitOn '-' with
  | [a, b, c, d, e] =>
    a.length == 8 && b.length == 4 && c.length == 4 && d.length == 4 && e.length == 12 &&
    (a ++ b ++ c ++ d ++ e).all isHexDigit
  | _ => false

/-- A parser that accepts the canonical textual form of a UUID and nothing
else: the form every release of `uuid.FromString` accepts. -/
def canonicalFromString (s : String) : Option GoError :=
  if isCanonicalUUID s.toList then none
  else some (.errorString ("uuid: incorrect UUID format " ++ s))

/-- The collaborators used in the concrete evaluations below: no case
mapping outside ASCII, the canonical-form UUID parser, and the object
identifier 1.3.6.1.4.1.44924.1.6 named in the verifier's error text. -/
def testExternals : Externals where
  lowerCase := id
  uuidFromString := canonicalFromString
  ekuOcfId := [1, 3, 6, 1, 4, 1, 44924, 1, 6]

/-- A certificate with every required purpose and the given common name. -/
def identityCert (cn : String) : Certificate where
  ExtKeyUsage := [ExtKeyUsageServerAuth, ExtKeyUsageClientAuth]
  UnknownExtKeyUsage := [[1, 3, 6, 1, 4, 1, 44924, 1, 6]]
  Subject := ⟨cn⟩

/-- An operation that fails at every invocation, the first time with another
error than later, and takes no time. -/
def failingOp : Operation := fun k _ _ =>
  if k = 0 then (some (.errorString "first failure"), 0)
  else (some (.errorString "later failure"), 0)

/-- An operation that fails at its first invocation and succeeds from the
second on. -/
def secondTimeOp : Operation := fun k _ _ =>
  if k = 0 then (some (.errorString "first failure"), 0) else (none, 0)

/-- A retry policy that grants one next attempt, at the instant `when`, and
reports termination at its second consultation. -/
def grantOnce (when : Int) : RetryFuncFactory := fun _ j _ =>
  if j = 0 then (when, none) else (0, some (.errorString "retry limit reached"))

/-- A parent context canceled at the instant `d`. -/
def canceledAt (d : Int) : Context := ⟨some d, .Canceled⟩

/-- A parent context with a deadline at the instant `d`. -/
def deadlineAt (d : Int) : Context := ⟨some d, .DeadlineExceeded⟩

/-- A device whose ownership resource reports `owner`, for an SDK of identity
`sdkID`; every write succeeds. -/
def deviceOwnedBy (owner sdkID : String) : Device where
  GetOwnership := fun _ => .ok ⟨owner⟩
  GetSdkOwnerID := .ok sdkID
  UpdateResource := fun _ _ => none
  schemeOf := fun uri =>
    if uri = "coaps://[fe80::1]:5684" then some .UDPSecureScheme
    else if uri = "coap://[fe80::1]:5683" then some .UDPScheme
    else none

/-- Links holding the provisioning resource, over one secured and one
unsecured endpoint. -/
def pstatLinks : ResourceLinks :=
  [⟨"/oic/sec/pstat", ["oic.r.pstat"],
    [⟨"coap://[fe80::1]:5683", 1⟩, ⟨"coaps://[fe80::1]:5684", 1⟩]⟩]

/-- A device owned by the SDK of identity `sdkID` whose every write has the
given result. -/
def deviceWriting (sdkID : String) (result : Option GoError) : Device where
  GetOwnership := fun _ => .ok ⟨sdkID⟩
  GetSdkOwnerID := .ok sdkID
  UpdateResource := fun _ _ => result
  schemeOf := fun uri =>
    if uri = "coaps://[fe80::1]:5684" then some .UDPSecureScheme
    else if uri = "coap://[fe80::1]:5683" then some .UDPScheme
    else none

/-- Schema methods for the concrete evaluations: the device ID of a link is
its first resource type, patching leaves the links as they are, and the one
address that parses is `coap://10.0.0.1:5683`. -/
def testSchema : SchemaFns where
  GetDeviceID := fun link => link.ResourceTypes.headD ""
  PatchEndpoints := fun links _ => links
  PatchEndpoint := fun link _ => link
  GetAddr := fun uri =>
    if uri = "coap://10.0.0.1:5683" then (⟨"coap", "10.0.0.1", 5683⟩, none)
    else if uri = "coaps://10.0.0.1:5684" then (⟨"coaps", "10.0.0.1", 5684⟩, none)
    else (⟨"", "", 0⟩, some (.errorString ("invalid endpoint " ++ uri)))

/-- The address used in the concrete evaluations. -/
def testAddr : Addr := ⟨"coap", "10.0.0.1", 5683⟩

/-- Links whose device link `/oic/d` carries the device ID `id` (as its first
resource type, see `testSchema`). -/
def deviceLinksOf (id : String) : ResourceLinks :=
  [⟨"/oic/d", [id, "oic.wk.d"], []⟩, ⟨"/oic/sec/pstat", ["oic.r.pstat"], []⟩]

/-- The empty pool. -/
def emptyPool : Pool := fun _ => none

/-! ## Theorems: the identity verifier -/

theorem clientAuth_ne_serverAuth : ExtKeyUsageClientAuth ≠ ExtKeyUsageServerAuth := by
  decide

theorem ekuFlags_foldl (ekus : List ExtKeyUsage) (acc : Bool × Bool) :
    ekus.foldl
      (fun acc eku =>
        let c := if eku = ExtKeyUsageClientAuth then true else acc.1
        let s := if eku = ExtKeyUsageServerAuth then true else acc.2
        (c, s)) acc
    = (acc.1 || decide (ExtKeyUsageClientAuth ∈ ekus),
       acc.2 || decide (ExtKeyUsageServerAuth ∈ ekus)) := by
  induction ekus generalizing acc with
  | nil => simp
  | cons eku rest ih =>
    rw [List.foldl_cons, ih]
    obtain ⟨a, b⟩ := acc
    by_cases h1 : eku = ExtKeyUsageClientAuth
    · subst h1
      cases a <;> cases b <;> simp [clientAuth_ne_serverAuth, clientAuth_ne_serverAuth.symm]
    · by_cases h2 : eku = ExtKeyUsageServerAuth
      · subst h2
        cases a <;> cases b <;> simp [clientAuth_ne_serverAuth, clientAuth_ne_serverAuth.symm]
      · cases a <;> cases b <;> simp [h1, h2, Ne.symm h1, Ne.symm h2]

theorem ekuFlags_fst (ekus : List ExtKeyUsage) :
    (ekuFlags ekus).1 = true ↔ ExtKeyUsageClientAuth ∈ ekus := by
  rw [ekuFlags, ekuFlags_foldl]
  simp

theorem ekuFlags_snd (ekus : List ExtKeyUsage) :
    (ekuFlags ekus).2 = true ↔ ExtKeyUsageServerAuth ∈ ekus := by
  rw [ekuFlags, ekuFlags_foldl]
  simp

theorem ekuHasOcfId_iff (ekuOcfId : ObjectIdentifier) (l : List ObjectIdentifier) :
    ekuHasOcfId ekuOcfId l = true ↔ ekuOcfId ∈ l := by
  induction l with
  | nil => simp [ekuHasOcfId]
  | cons eku rest ih =>
    by_cases h : eku = ekuOcfId
    · simp [ekuHasOcfId, h]
    · simp [ekuHasOcfId, h, ih, Ne.symm h]

/-- Acceptance, characterised: the verifier returns nil exactly when the three
purposes are present and the common name splits on the colon into two parts,
the first lower-casing to the text uuid and the second accepted by the UUID
parser. -/
theorem verify_eq_none_iff (X : Externals) (cert : Certificate) :
    VerifyIndetityCertificate X cert = none ↔
      ExtKeyUsageClientAuth ∈ cert.ExtKeyUsage ∧
      ExtKeyUsageServerAuth ∈ cert.ExtKeyUsage ∧
      X.ekuOcfId ∈ cert.UnknownExtKeyUsage ∧
      ∃ cn0 cn1, strings_Split cert.Subject.CommonName ':' = [cn0, cn1] ∧
        strings_ToLower X.lowerCase cn0 = "uuid" ∧ X.uuidFromString cn1 = none := by
  unfold VerifyIndetityCertificate
  by_cases hc : (ekuFlags cert.ExtKeyUsage).1 = true
  · by_cases hs : (ekuFlags cert.ExtKeyUsage).2 = true
    · by_cases ho : ekuHasOcfId X.ekuOcfId cert.UnknownExtKeyUsage = true
      · have hc2 := (ekuFlags_fst _).1 hc
        have hs2 := (ekuFlags_snd _).1 hs
        have ho2 := (ekuHasOcfId_iff _ _).1 ho
        simp only [hc, hs, ho, hc2, hs2, ho2, Bool.not_true, Bool.false_eq_true, if_false,
          true_and]
        split
        · rename_i cn0 cn1 hsplit
          by_cases hl : strings_ToLower X.lowerCase cn0 = "uuid"
          · cases hp : X.uuidFromString cn1 with
            | none =>
              simp only [hl, ne_eq, not_true_eq_false, if_false, true_iff]
              exact ⟨cn0, cn1, hsplit, hl, hp⟩
            | some err =>
              simp only [hl, ne_eq, not_true_eq_false, if_false]
              constructor
              · intro h; cases h
              · rintro ⟨a, b, hab, -, hb⟩
                rw [hsplit] at hab
                injection hab with h1 h2
                injection h2 with h2 _
                rw [← h2, hp] at hb
                cases hb
          · simp only [ne_eq, hl, not_false_eq_true, if_true]
            constructor
            · intro h; cases h
            · rintro ⟨a, b, hab, ha, -⟩
              rw [hsplit] at hab
              injection hab with h1 _
              exact absurd (h1 ▸ ha) hl
        · rename_i hne
          constructor
          · intro h; cases h
          · rintro ⟨cn0, cn1, hsplit, -, -⟩
            exact absurd hsplit (hne cn0 cn1)
      · have ho2 : X.ekuOcfId ∉ cert.UnknownExtKeyUsage := fun h => ho ((ekuHasOcfId_iff _ _).2 h)
        simp [hc, hs, ho, ho2]
    · have hs2 : ExtKeyUsageServerAuth ∉ cert.ExtKeyUsage := fun h => hs ((ekuFlags_snd _).2 h)
      simp [hc, hs, hs2]
  · have hc2 : ExtKeyUsageClientAuth ∉ cert.ExtKeyUsage := fun h => hc ((ekuFlags_fst _).2 h)
    simp [hc, hc2]

/-- Splitting on the colon recovers the two parts of a name written as a
colon-free prefix, a colon, and a colon-free rest. -/
theorem strings_Split_of_two (a b : String) (ha : ':' ∉ a.toList) (hb : ':' ∉ b.toList) :
    strings_Split (a ++ ":" ++ b) ':' = [a, b] := by
  have hdata : (a ++ ":" ++ b).toList = a.toList ++ ':' :: b.toList := by
    simp [String.toList, String.data_append]
  have h1 : List.splitOnP (fun x => x == ':') (a.toList ++ ':' :: b.toList)
      = a.toList :: List.splitOnP (fun x => x == ':') b.toList := by
    apply List.splitOnP_first
    · intro x hx hxe
      have : x = ':' := by simpa using hxe
      exact ha (this ▸ hx)
    · simp
  have h2 : List.splitOnP (fun x => x == ':') b.toList = [b.toList] := by
    apply List.splitOnP_eq_single
    intro x hx hxe
    have : x = ':' := by simpa using hxe
    exact hb (this ▸ hx)
  unfold strings_Split List.splitOn
  rw [hdata, h1, h2]
  rfl

/-- When the split yields two parts, the name is the first part, a colon and
the second part. -/
theorem eq_of_strings_Split_two (s a b : String) (h : strings_Split s ':' = [a, b]) :
    s = a ++ ":" ++ b := by
  unfold strings_Split at h
  have hi := List.intercalate_splitOn s.toList ':'
  cases hsp : List.splitOn ':' s.toList with
  | nil => rw [hsp] at h; cases h
  | cons x t =>
    cases t with
    | nil => rw [hsp] at h; cases h
    | cons y t2 =>
      cases t2 with
      | cons z t3 => rw [hsp] at h; cases h
      | nil =>
        rw [hsp] at h hi
        simp only [List.map_cons, List.map_nil, List.cons.injEq, and_true] at h
        obtain ⟨hx, hy⟩ := h
        apply String.ext
        rw [← hx, ← hy]
        simp only [String.data_append]
        simpa [List.intercalate, String.toList] using hi.symm

/-- With every certificate parsing and passing chain verification, the
callback returns nil whatever the identity verifier answers. -/
theorem dial_callback_ignores_identity_verifier
    (verifyPeerCertificate : Certificate → Option GoError) (rawCerts : List Certificate) :
    DialTcpTls_VerifyPeerCertificate (fun c => .ok c) (fun _ => none) verifyPeerCertificate rawCerts
      = none := by
  induction rawCerts with
  | nil => rfl
  | cons c rest ih =>
    simp only [DialTcpTls_VerifyPeerCertificate, ne_eq, not_true_eq_false, if_false, ih]
    split <;> rfl

/-- C1, at the failing input: a peer list of one certificate that parses and
passes chain verification but whose common name notuuid:1234 makes
VerifyIndetityCertificate return an error; the callback installed by
DialTcpTls returns nil for it, so the handshake is not rejected. -/
theorem dial_callback_nil_on_identity_failure :
    VerifyIndetityCertificate testExternals (identityCert "notuuid:1234") ≠ none ∧
    DialTcpTls_VerifyPeerCertificate (fun c => Except.ok c) (fun _ => none)
      (VerifyIndetityCertificate testExternals) [identityCert "notuuid:1234"] = none := by
  decide

/-- C2: a certificate that VerifyIndetityCertificate accepts has the
client-auth and the server-auth purpose in ExtKeyUsage and the OCF identity
OID in UnknownExtKeyUsage; and a certificate missing one of the three is
rejected, whatever its common name. -/
theorem verify_requires_all_purposes (X : Externals) (cert : Certificate) :
    (VerifyIndetityCertificate X cert = none →
      ExtKeyUsageClientAuth ∈ cert.ExtKeyUsage ∧ ExtKeyUsageServerAuth ∈ cert.ExtKeyUsage ∧
        X.ekuOcfId ∈ cert.UnknownExtKeyUsage) ∧
    (¬ (ExtKeyUsageClientAuth ∈ cert.ExtKeyUsage ∧ ExtKeyUsageServerAuth ∈ cert.ExtKeyUsage ∧
        X.ekuOcfId ∈ cert.UnknownExtKeyUsage) →
      VerifyIndetityCertificate X cert ≠ none) := by
  have key : VerifyIndetityCertificate X cert = none →
      ExtKeyUsageClientAuth ∈ cert.ExtKeyUsage ∧ ExtKeyUsageServerAuth ∈ cert.ExtKeyUsage ∧
        X.ekuOcfId ∈ cert.UnknownExtKeyUsage := by
    intro h
    obtain ⟨h1, h2, h3, -⟩ := (verify_eq_none_iff X cert).1 h
    exact ⟨h1, h2, h3⟩
  exact ⟨key, fun hn h => hn (key h)⟩

/-- C2, at a concrete input: the accepted certificate has the three purposes,
and the same certificate without the client-auth purpose is rejected. -/
theorem verify_requires_all_purposes_witness :
    (ExtKeyUsageClientAuth ∈ (identityCert "uuid:00000000-0000-0000-0000-000000000000").ExtKeyUsage ∧
      ExtKeyUsageServerAuth ∈ (identityCert "uuid:00000000-0000-0000-0000-000000000000").ExtKeyUsage ∧
      testExternals.ekuOcfId ∈
        (identityCert "uuid:00000000-0000-0000-0000-000000000000").UnknownExtKeyUsage) ∧
    VerifyIndetityCertificate testExternals
      ⟨[ExtKeyUsageServerAuth], [[1, 3, 6, 1, 4, 1, 44924, 1, 6]],
        ⟨"uuid:00000000-0000-0000-0000-000000000000"⟩⟩ ≠ none :=
  ⟨(verify_requires_all_purposes testExternals
      (identityCert "uuid:00000000-0000-0000-0000-000000000000")).1 (by decide),
   (verify_requires_all_purposes testExternals
      ⟨[ExtKeyUsageServerAuth], [[1, 3, 6, 1, 4, 1, 44924, 1, 6]],
        ⟨"uuid:00000000-0000-0000-0000-000000000000"⟩⟩).2 (by decide)⟩

/-- C3 as stated fails: the certificate with every purpose and the common
name UUID:00000000-0000-0000-0000-000000000000 is accepted, and its common
name does not start with the lower-case text uuid followed by a colon. -/
theorem verify_accepts_upper_case_uuid :
    VerifyIndetityCertificate testExternals
        (identityCert "UUID:00000000-0000-0000-0000-000000000000") = none ∧
    ¬ ∃ u : String,
        (identityCert "UUID:00000000-0000-0000-0000-000000000000").Subject.CommonName
          = "uuid:" ++ u ∧ testExternals.uuidFromString u = none := by
  refine ⟨by decide, ?_⟩
  rintro ⟨u, h, -⟩
  have hd := congrArg String.data h
  simp [identityCert, String.data_append] at hd

/-- C3, amended: the common name of an accepted certificate is a prefix, a
colon and a rest, where the prefix lower-cases (strings.ToLower) to the text
uuid and the rest is accepted by uuid.FromString. -/
theorem verify_accepted_common_name (X : Externals) (cert : Certificate)
    (h : VerifyIndetityCertificate X cert = none) :
    ∃ p u : String, cert.Subject.CommonName = p ++ ":" ++ u ∧
      strings_ToLower X.lowerCase p = "uuid" ∧ X.uuidFromString u = none := by
  obtain ⟨-, -, -, cn0, cn1, hsplit, hl, hp⟩ := (verify_eq_none_iff X cert).1 h
  exact ⟨cn0, cn1, eq_of_strings_Split_two _ _ _ hsplit, hl, hp⟩

/-- C3, amended, at a concrete accepted certificate. -/
theorem verify_accepted_common_name_witness :
    ∃ p u : String,
      (identityCert "UUID:00000000-0000-0000-0000-000000000000").Subject.CommonName
        = p ++ ":" ++ u ∧
      strings_ToLower testExternals.lowerCase p = "uuid" ∧
      testExternals.uuidFromString u = none :=
  verify_accepted_common_name testExternals
    (identityCert "UUID:00000000-0000-0000-0000-000000000000") (by decide)

/-- C4: a certificate with the client-auth and server-auth purposes and the
OCF identity OID whose common name is the text uuid, a colon, and a
colon-free string that uuid.FromString accepts, is accepted. -/
theorem verify_accepts_identity_certificate (X : Externals) (cert : Certificate) (u : String)
    (hc : ExtKeyUsageClientAuth ∈ cert.ExtKeyUsage)
    (hs : ExtKeyUsageServerAuth ∈ cert.ExtKeyUsage)
    (ho : X.ekuOcfId ∈ cert.UnknownExtKeyUsage)
    (hcn : cert.Subject.CommonName = "uuid:" ++ u)
    (hcolon : ':' ∉ u.toList)
    (hu : X.uuidFromString u = none) :
    VerifyIndetityCertificate X cert = none := by
  refine (verify_eq_none_iff X cert).2 ⟨hc, hs, ho, "uuid", u, ?_, rfl, hu⟩
  have h := strings_Split_of_two "uuid" u (by decide) hcolon
  rw [hcn]
  exact h

/-- C4, at a concrete certificate. -/
theorem verify_accepts_identity_certificate_witness :
    VerifyIndetityCertificate testExternals
      (identityCert "uuid:00000000-0000-0000-0000-000000000000") = none :=
  verify_accepts_identity_certificate testExternals
    (identityCert "uuid:00000000-0000-0000-0000-000000000000")
    "00000000-0000-0000-0000-000000000000"
    (by decide) (by decide) (by decide) (by decide) (by decide) (by decide)

/-- C5 as stated fails: for the common name Uuid:00000000-0000-0000-0000-000000000000
the first part of the split is not the text uuid, and the certificate is
accepted. -/
theorem verify_accepts_mixed_case_first_part :
    (strings_Split
        (identityCert "Uuid:00000000-0000-0000-0000-000000000000").Subject.CommonName ':')[0]?
      ≠ some "uuid" ∧
    VerifyIndetityCertificate testExternals
      (identityCert "Uuid:00000000-0000-0000-0000-000000000000") = none := by
  decide

/-- C5, amended: the common name notuuid:1234 is rejected for every choice of
key usages; and a certificate is rejected whenever its common name does not
split on the colon into exactly two parts, or the first part does not
lower-case (strings.ToLower) to the text uuid, or uuid.FromString returns an
error for the second part. -/
theorem verify_rejects_malformed_common_name (X : Externals) :
    (∀ (ekus : List ExtKeyUsage) (unknown : List ObjectIdentifier),
      VerifyIndetityCertificate X ⟨ekus, unknown, ⟨"notuuid:1234"⟩⟩ ≠ none) ∧
    (∀ cert : Certificate,
      ((strings_Split cert.Subject.CommonName ':').length ≠ 2 ∨
        (∃ p, (strings_Split cert.Subject.CommonName ':')[0]? = some p ∧
          strings_ToLower X.lowerCase p ≠ "uuid") ∨
        (∃ u e, (strings_Split cert.Subject.CommonName ':')[1]? = some u ∧
          X.uuidFromString u = some e)) →
      VerifyIndetityCertificate X cert ≠ none) := by
  have gen : ∀ cert : Certificate,
      ((strings_Split cert.Subject.CommonName ':').length ≠ 2 ∨
        (∃ p, (strings_Split cert.Subject.CommonName ':')[0]? = some p ∧
          strings_ToLower X.lowerCase p ≠ "uuid") ∨
        (∃ u e, (strings_Split cert.Subject.CommonName ':')[1]? = some u ∧
          X.uuidFromString u = some e)) →
      VerifyIndetityCertificate X cert ≠ none := by
    intro cert hbad hacc
    obtain ⟨-, -, -, cn0, cn1, hsplit, hl, hp⟩ := (verify_eq_none_iff X cert).1 hacc
    rw [hsplit] at hbad
    rcases hbad with h | ⟨p, hp0, hne⟩ | ⟨u, e, hu1, hue⟩
    · exact h rfl
    · simp only [List.getElem?_cons_zero, Option.some.injEq] at hp0
      exact hne (hp0 ▸ hl)
    · simp only [List.getElem?_cons_succ, List.getElem?_cons_zero, Option.some.injEq] at hu1
      rw [← hu1, hp] at hue
      cases hue
  refine ⟨fun ekus unknown => ?_, gen⟩
  apply gen
  right; left
  refine ⟨"notuuid", ?_, ?_⟩
  · show (strings_Split "notuuid:1234" ':')[0]? = some "notuuid"
    decide
  intro h
  have hlen := congrArg String.length h
  simp [strings_ToLower, String.length] at hlen

/-- C5, amended, at concrete inputs: notuuid:1234 with every purpose present,
and a name whose second part is not a UUID. -/
theorem verify_rejects_malformed_common_name_witness :
    VerifyIndetityCertificate testExternals (identityCert "notuuid:1234") ≠ none ∧
    VerifyIndetityCertificate testExternals (identityCert "uuid:1234") ≠ none :=
  ⟨(verify_rejects_malformed_common_name testExternals).1 _ _,
   (verify_rejects_malformed_common_name testExternals).2 (identityCert "uuid:1234")
     (Or.inr (Or.inr ⟨"1234", .errorString "uuid: incorrect UUID format 1234",
       by decide, by decide⟩))⟩

/-! ## Theorems: the retry orchestrator -/

/-- A text of the form first, colon, second contains both the first and the
second text. -/
theorem textContains_both (a b : String) :
    textContains (a ++ ": " ++ b) a ∧ textContains (a ++ ": " ++ b) b := by
  constructor
  · refine ⟨[], (": " ++ b).toList, ?_⟩
    simp [String.toList, String.data_append]
  · refine ⟨(a ++ ": ").toList, [], ?_⟩
    simp [String.toList, String.data_append]

/-- One iteration in which `op` fails and the policy grants a next attempt:
either the loop goes on with the next attempt, having called `op` once, the
retry closure once and the factory not at all; or the granted instant is
later than the current one, the `select` takes the case of the parent
context, and the loop returns the error of the parent. -/
theorem loop_step (parentCtx : Context) (operationTimeout : Int) (op : Operation)
    (rf : RetryFunc) (tie : Nat → Bool) (attempt : Nat) (now : Int) (trace : List Call)
    (hop : ∀ ctx t, (op attempt ctx t).1 ≠ none)
    (hrf : ∀ t, (rf attempt t).2 = none) :
    (∃ now1 trace1,
      (∀ fuel, operationWithRetries_loop parentCtx operationTimeout op rf tie (fuel + 1) attempt
          now trace
        = operationWithRetries_loop parentCtx operationTimeout op rf tie fuel (attempt + 1)
          now1 trace1) ∧
      trace1.countP Call.isOp = trace.countP Call.isOp + 1 ∧
      trace1.countP Call.isRf = trace.countP Call.isRf + 1 ∧
      trace1.countP Call.isFactory = trace.countP Call.isFactory) ∨
    (∃ t trace2,
      (rf attempt t).1 > t ∧
      selectDone parentCtx (rf attempt t).1 (tie attempt) = true ∧
      (∀ fuel, operationWithRetries_loop parentCtx operationTimeout op rf tie (fuel + 1) attempt
          now trace
        = some ⟨some parentCtx.err, trace2⟩) ∧
      trace2.countP Call.isOp = trace.countP Call.isOp + 1 ∧
      trace2.countP Call.isFactory = trace.countP Call.isFactory) := by
  obtain ⟨e, he⟩ := Option.ne_none_iff_exists'.1
    (hop (WithTimeout parentCtx now operationTimeout) now)
  have hg := hrf (now + ((op attempt (WithTimeout parentCtx now operationTimeout) now).2 : Int))
  by_cases hs : (rf attempt
      (now + ((op attempt (WithTimeout parentCtx now operationTimeout) now).2 : Int))).1
      - (now + ((op attempt (WithTimeout parentCtx now operationTimeout) now).2 : Int)) > 0
  · by_cases hsel : selectDone parentCtx (rf attempt
        (now + ((op attempt (WithTimeout parentCtx now operationTimeout) now).2 : Int))).1
        (tie attempt) = true
    · right
      refine ⟨now + ((op attempt (WithTimeout parentCtx now operationTimeout) now).2 : Int),
        trace ++ [.op (some e)] ++ [.rf] ++ [.timeAfter ((rf attempt
          (now + ((op attempt (WithTimeout parentCtx now operationTimeout) now).2 : Int))).1
          - (now + ((op attempt (WithTimeout parentCtx now operationTimeout) now).2 : Int)))],
        by omega, hsel, fun fuel => ?_, ?_, ?_⟩
      · rw [operationWithRetries_loop]
        simp only [he, hg, hs, hsel, if_true]
      · simp [List.countP_append, Call.isOp]
      · simp [List.countP_append, Call.isFactory]
    · left
      refine ⟨(rf attempt
          (now + ((op attempt (WithTimeout parentCtx now operationTimeout) now).2 : Int))).1,
        trace ++ [.op (some e)] ++ [.rf] ++ [.timeAfter ((rf attempt
          (now + ((op attempt (WithTimeout parentCtx now operationTimeout) now).2 : Int))).1
          - (now + ((op attempt (WithTimeout parentCtx now operationTimeout) now).2 : Int)))],
        fun fuel => ?_, ?_, ?_, ?_⟩
      · rw [operationWithRetries_loop]
        simp only [he, hg, hs, hsel, if_true, Bool.false_eq_true, if_false]
      · simp [List.countP_append, Call.isOp]
      · simp [List.countP_append, Call.isRf]
      · simp [List.countP_append, Call.isFactory]
  · left
    refine ⟨now + ((op attempt (WithTimeout parentCtx now operationTimeout) now).2 : Int),
      trace ++ [.op (some e)] ++ [.rf], fun fuel => ?_, ?_, ?_, ?_⟩
    · rw [operationWithRetries_loop]
      simp only [he, hg, hs, if_false]
    · simp [List.countP_append, Call.isOp]
    · simp [List.countP_append, Call.isRf]
    · simp [List.countP_append, Call.isFactory]

/-- The first `n` iterations, in each of which `op` fails and the policy
grants a next attempt: either the loop stands at the attempt number
`attempt + n`, having called `op` and the retry closure `n` times; or in one
of these iterations the granted instant was later than the current one, the
`select` took the case of the parent context, and the loop has returned the
error of the parent. -/
theorem loop_attempts_outcome (parentCtx : Context) (operationTimeout : Int) (op : Operation)
    (rf : RetryFunc) (tie : Nat → Bool) (n : Nat) :
    ∀ (attempt : Nat) (now : Int) (trace : List Call),
      (∀ i, i < n → ∀ ctx t, (op (attempt + i) ctx t).1 ≠ none) →
      (∀ j, j < n → ∀ t, (rf (attempt + j) t).2 = none) →
      (∃ now1 trace1,
        (∀ fuel, operationWithRetries_loop parentCtx operationTimeout op rf tie (fuel + n)
            attempt now trace
          = operationWithRetries_loop parentCtx operationTimeout op rf tie fuel (attempt + n)
            now1 trace1) ∧
        trace1.countP Call.isOp = trace.countP Call.isOp + n ∧
        trace1.countP Call.isRf = trace.countP Call.isRf + n ∧
        trace1.countP Call.isFactory = trace.countP Call.isFactory ∧
        (n = 0 → trace1 = trace)) ∨
      (∃ j t trace2, j < n ∧
        (rf (attempt + j) t).1 > t ∧
        selectDone parentCtx (rf (attempt + j) t).1 (tie (attempt + j)) = true ∧
        (∀ fuel, operationWithRetries_loop parentCtx operationTimeout op rf tie (fuel + n)
            attempt now trace
          = some ⟨some parentCtx.err, trace2⟩) ∧
        trace2.countP Call.isOp = trace.countP Call.isOp + (j + 1) ∧
        trace2.countP Call.isFactory = trace.countP Call.isFactory) := by
  induction n with
  | zero =>
    intro attempt now trace _ _
    exact Or.inl ⟨now, trace, fun _ => rfl, rfl, rfl, rfl, fun _ => rfl⟩
  | succ n ih =>
    intro attempt now trace hop hrf
    have hop0 : ∀ ctx t, (op attempt ctx t).1 ≠ none := by
      simpa using hop 0 (Nat.succ_pos n)
    have hrf0 : ∀ t, (rf attempt t).2 = none := by
      simpa using hrf 0 (Nat.succ_pos n)
    rcases loop_step parentCtx operationTimeout op rf tie attempt now trace hop0 hrf0 with
      ⟨now1, trace1, hstep, h1, h2, h3⟩ | ⟨t, trace2, hfut, hsel, hret, g1, g3⟩
    · rcases ih (attempt + 1) now1 trace1
        (fun i hi => by
          have := hop (i + 1) (Nat.succ_lt_succ hi)
          rwa [show attempt + (i + 1) = attempt + 1 + i by omega] at this)
        (fun j hj => by
          have := hrf (j + 1) (Nat.succ_lt_succ hj)
          rwa [show attempt + (j + 1) = attempt + 1 + j by omega] at this) with
        ⟨now2, trace3, hrest, k1, k2, k3, -⟩ | ⟨j, t, trace2, hj, hfut, hsel, hret, k1, k3⟩
      · left
        refine ⟨now2, trace3, fun fuel => ?_, by omega, by omega, by omega, fun h => by omega⟩
        rw [show fuel + (n + 1) = (fuel + n) + 1 by omega, hstep (fuel + n), hrest fuel,
          show attempt + 1 + n = attempt + (n + 1) by omega]
      · right
        refine ⟨j + 1, t, trace2, Nat.succ_lt_succ hj, ?_, ?_, fun fuel => ?_, by omega,
          by omega⟩
        · rwa [show attempt + (j + 1) = attempt + 1 + j by omega]
        · rwa [show attempt + (j + 1) = attempt + 1 + j by omega]
        · rw [show fuel + (n + 1) = (fuel + n) + 1 by omega, hstep (fuel + n), hret fuel]
    · right
      refine ⟨0, t, trace2, Nat.succ_pos n, by simpa using hfut, by simpa using hsel,
        fun fuel => ?_, by omega, g3⟩
      rw [show fuel + (n + 1) = (fuel + n) + 1 by omega, hret (fuel + n)]

/-- The number of results recorded for `op` is the number of its calls. -/
theorem opResults_length (trace : List Call) :
    (opResults trace).length = trace.countP Call.isOp := by
  induction trace with
  | nil => rfl
  | cons c rest ih =>
    cases c <;> simp [opResults, List.filterMap_cons, List.countP_cons, Call.isOp] at ih ⊢ <;>
      exact ih

/-- C6 as stated fails: with a policy terminating at its second consultation
(N = 2) and an operation that always fails, a parent context canceled during
the backoff wait makes operationWithRetries return the context error after
one invocation of op; that error holds neither the termination reason nor the
operation error. -/
theorem retries_canceled_wait_discards_operation_error :
    operationWithRetries (canceledAt 5) (grantOnce 10) 1000 failingOp (fun _ => false) 2 0
      = some ⟨some .Canceled,
          [.retryFuncFactory, .op (some (.errorString "first failure")), .rf, .timeAfter 10]⟩ ∧
    GoError.Canceled.Error = "context canceled" ∧
    (∀ k ctx t, (failingOp k ctx t).1 ≠ none) ∧
    (∀ t, (grantOnce 10 () 0 t).2 = none) ∧
    (∀ t, (grantOnce 10 () 1 t).2 = some (.errorString "retry limit reached")) := by
  refine ⟨by decide, rfl, ?_, fun _ => rfl, fun _ => rfl⟩
  intro k ctx t
  unfold failingOp
  split <;> simp

/-- C6, amended: for an operation that always fails and a policy that grants
a next attempt on its first n consultations and reports termination with the
error P on consultation n + 1, the run returns (with fuel n + 1 or more) and
calls the retry factory once. Either it invokes op n + 1 times and returns
the error whose text is that of P, a colon, and the text of the error of the
last invocation of op; or some granted instant was later than the current
one, the select of that wait took the case of the parent context (the parent
was done before the end of the wait), and the run returned the error of the
parent. So when no wait that the policy grants is ended by the parent
context, the first holds. -/
theorem retries_exhausted_reports_last_error (parentCtx : Context)
    (retryFuncFactory : RetryFuncFactory) (operationTimeout : Int) (op : Operation)
    (tie : Nat → Bool) (n fuel : Nat) (now : Int) (P : GoError)
    (hfail : ∀ k ctx t, (op k ctx t).1 ≠ none)
    (hgrant : ∀ j, j < n → ∀ t, (retryFuncFactory () j t).2 = none)
    (hterm : ∀ t, (retryFuncFactory () n t).2 = some P)
    (hfuel : n + 1 ≤ fuel) :
    ∃ r, operationWithRetries parentCtx retryFuncFactory operationTimeout op tie fuel now
        = some r ∧
      r.trace.countP Call.isFactory = 1 ∧
      ((r.trace.countP Call.isOp = n + 1 ∧
        ∃ e, (opResults r.trace).getLast? = some (some e) ∧
          r.err = some (.errorString (P.Error ++ ": " ++ e.Error)) ∧
          textContains (P.Error ++ ": " ++ e.Error) P.Error ∧
          textContains (P.Error ++ ": " ++ e.Error) e.Error) ∨
       (∃ j t, j < n ∧ (retryFuncFactory () j t).1 > t ∧
          selectDone parentCtx (retryFuncFactory () j t).1 (tie j) = true ∧
          r.err = some parentCtx.err ∧ r.trace.countP Call.isOp = j + 1)) ∧
      ((∀ j, j < n → ∀ t, (retryFuncFactory () j t).1 > t →
          selectDone parentCtx (retryFuncFactory () j t).1 (tie j) = false) →
        r.trace.countP Call.isOp = n + 1 ∧
        ∃ e, (opResults r.trace).getLast? = some (some e) ∧
          r.err = some (.errorString (P.Error ++ ": " ++ e.Error)) ∧
          textContains (P.Error ++ ": " ++ e.Error) P.Error ∧
          textContains (P.Error ++ ": " ++ e.Error) e.Error) := by
  rcases loop_attempts_outcome parentCtx operationTimeout op (retryFuncFactory ()) tie n 0 now
      [.retryFuncFactory] (fun i _ => by simpa using hfail i)
      (fun j hj => by simpa using hgrant j hj) with
    ⟨now1, trace1, hrun, h1, -, h3, -⟩ | ⟨j, t, trace2, hj, hfut, hsel, hret, k1, k3⟩
  · obtain ⟨m, rfl⟩ : ∃ m, fuel = m + 1 + n := ⟨fuel - (n + 1), by omega⟩
    obtain ⟨e, he⟩ := Option.ne_none_iff_exists'.1
      (hfail n (WithTimeout parentCtx now1 operationTimeout) now1)
    have ht := hterm (now1 + ((op n (WithTimeout parentCtx now1 operationTimeout) now1).2 : Int))
    have hA : (trace1 ++ [Call.op (some e)] ++ [Call.rf]).countP Call.isOp = n + 1 ∧
        ∃ e', (opResults (trace1 ++ [Call.op (some e)] ++ [Call.rf])).getLast? = some (some e') ∧
          (some (GoError.errorString (P.Error ++ ": " ++ e.Error)) : Option GoError)
            = some (.errorString (P.Error ++ ": " ++ e'.Error)) ∧
          textContains (P.Error ++ ": " ++ e'.Error) P.Error ∧
          textContains (P.Error ++ ": " ++ e'.Error) e'.Error := by
      refine ⟨by simp [List.countP_append, Call.isOp, h1], e, ?_, rfl,
        (textContains_both _ _).1, (textContains_both _ _).2⟩
      simp [opResults, List.filterMap_append]
    refine ⟨⟨some (.errorString (P.Error ++ ": " ++ e.Error)),
      trace1 ++ [.op (some e)] ++ [.rf]⟩, ?_, ?_, Or.inl hA, fun _ => hA⟩
    · unfold operationWithRetries
      simp only []
      rw [hrun (m + 1), Nat.zero_add, operationWithRetries_loop]
      simp only [he, ht]
    · simpa [List.countP_append, Call.isFactory] using h3
  · obtain ⟨m, rfl⟩ : ∃ m, fuel = m + n := ⟨fuel - n, by omega⟩
    rw [Nat.zero_add] at hfut hsel
    refine ⟨⟨some parentCtx.err, trace2⟩, ?_, ?_,
      Or.inr ⟨j, t, hj, hfut, hsel, rfl, ?_⟩, fun hwait => ?_⟩
    · unfold operationWithRetries
      simp only []
      exact hret m
    · simpa [Call.isFactory] using k3
    · simpa [Call.isOp, Nat.add_comm] using k1
    · have := hwait j hj t hfut
      rw [hsel] at this
      cases this

/-- C6, amended, at a concrete run under a parent context with a deadline
that is still far: one granted retry, then termination. -/
theorem retries_exhausted_reports_last_error_witness :
    ∃ r, operationWithRetries (deadlineAt 3000000000) (grantOnce 10) 1000 failingOp
        (fun _ => false) 2 0 = some r ∧
      r.trace.countP Call.isFactory = 1 ∧
      r.trace.countP Call.isOp = 1 + 1 ∧
      ∃ e, (opResults r.trace).getLast? = some (some e) ∧
        r.err = some (.errorString
          ((GoError.errorString "retry limit reached").Error ++ ": " ++ e.Error)) := by
  obtain ⟨r, hr, hf, -, hcond⟩ :=
    retries_exhausted_reports_last_error (deadlineAt 3000000000) (grantOnce 10) 1000 failingOp
      (fun _ => false) 1 2 0 (.errorString "retry limit reached")
      (fun k _ _ => by unfold failingOp; split <;> simp)
      (fun j hj _ => by
        have : j = 0 := by omega
        subst this; rfl)
      (fun _ => rfl) (by decide)
  obtain ⟨hop, e, hl, he, -, -⟩ := hcond (fun j hj t _ => by
    have : j = 0 := by omega
    subst this
    show selectDone (deadlineAt 3000000000) 10 false = false
    decide)
  exact ⟨r, hr, hf, hop, e, hl, he⟩

/-- C7 as stated fails: the parent context is already canceled, the policy
grants a next attempt at an instant that is not in the future, and
operationWithRetries invokes op a second time and returns the error of the
policy and of that second invocation, not the error of the context. -/
theorem retries_invoke_op_again_after_cancel :
    (canceledAt 0).Err 0 = some .Canceled ∧
    (grantOnce 0 () 0 0).2 = none ∧
    operationWithRetries (canceledAt 0) (grantOnce 0) 1000 failingOp (fun _ => false) 2 0
      = some ⟨some (.errorString "retry limit reached: later failure"),
          [.retryFuncFactory, .op (some (.errorString "first failure")), .rf,
           .op (some (.errorString "later failure")), .rf]⟩ := by
  decide

/-- C7, amended: in an iteration where op has failed, the policy grants a next
attempt at an instant later than the current one, and the parent context is
done before that instant (already at the moment the policy answers, or during
the wait), the loop returns the error of the parent context at once: after the
call of op of this iteration come only the consultation of the policy and the
start of the wait. -/
theorem retries_canceled_wait_returns_parent_error (parentCtx : Context)
    (operationTimeout : Int) (op : Operation) (rf : RetryFunc) (tie : Nat → Bool)
    (fuel attempt : Nat) (now : Int) (trace : List Call) (e : GoError) (d : Int)
    (hop : (op attempt (WithTimeout parentCtx now operationTimeout) now).1 = some e)
    (hgrant : (rf attempt
      (now + ((op attempt (WithTimeout parentCtx now operationTimeout) now).2 : Int))).2 = none)
    (hfuture : (rf attempt
      (now + ((op attempt (WithTimeout parentCtx now operationTimeout) now).2 : Int))).1
      > now + ((op attempt (WithTimeout parentCtx now operationTimeout) now).2 : Int))
    (hdone : parentCtx.doneAt = some d)
    (hbefore : d < (rf attempt
      (now + ((op attempt (WithTimeout parentCtx now operationTimeout) now).2 : Int))).1) :
    operationWithRetries_loop parentCtx operationTimeout op rf tie (fuel + 1) attempt now trace
      = some ⟨some parentCtx.err,
          trace ++ [.op (some e)] ++ [.rf] ++ [.timeAfter ((rf attempt
            (now + ((op attempt (WithTimeout parentCtx now operationTimeout) now).2 : Int))).1
            - (now + ((op attempt (WithTimeout parentCtx now operationTimeout) now).2 : Int)))]⟩ ∧
    parentCtx.Err (rf attempt
      (now + ((op attempt (WithTimeout parentCtx now operationTimeout) now).2 : Int))).1
      = some parentCtx.err := by
  have hs : (rf attempt
      (now + ((op attempt (WithTimeout parentCtx now operationTimeout) now).2 : Int))).1
      - (now + ((op attempt (WithTimeout parentCtx now operationTimeout) now).2 : Int)) > 0 := by
    omega
  constructor
  · rw [operationWithRetries_loop]
    simp only [hop, hgrant, hs, if_true, selectDone, hdone, hbefore]
  · simp only [Context.Err, hdone]
    rw [if_pos (le_of_lt hbefore)]

/-- C7, amended, at a concrete run: the parent context is canceled at the
instant 5 of a wait that would end at the instant 10. -/
theorem retries_canceled_wait_returns_parent_error_witness :
    operationWithRetries_loop (canceledAt 5) 1000 failingOp (grantOnce 10 ()) (fun _ => false)
        (1 + 1) 0 0 [.retryFuncFactory]
      = some ⟨some (canceledAt 5).err,
          [.retryFuncFactory] ++ [.op (some (.errorString "first failure"))] ++ [.rf] ++
            [.timeAfter ((grantOnce 10 () 0
              (0 + ((failingOp 0 (WithTimeout (canceledAt 5) 0 1000) 0).2 : Int))).1
              - (0 + ((failingOp 0 (WithTimeout (canceledAt 5) 0 1000) 0).2 : Int)))]⟩ ∧
    (canceledAt 5).Err (grantOnce 10 () 0
        (0 + ((failingOp 0 (WithTimeout (canceledAt 5) 0 1000) 0).2 : Int))).1
      = some (canceledAt 5).err :=
  retries_canceled_wait_returns_parent_error (canceledAt 5) 1000 failingOp (grantOnce 10 ())
    (fun _ => false) 1 0 0 [.retryFuncFactory] (.errorString "first failure") 5
    (by decide) (by decide) (by decide) (by decide) (by decide)

/-- C8: for an operation whose invocation number n + 1 is the first to return
nil and a policy that grants a next attempt on its first n consultations, the
run returns (with fuel n + 1 or more). With the parent context not canceled,
that is when no wait that the policy grants is ended by the parent context,
it returns nil after n + 1 invocations of op and n consultations of the
policy. The only other outcome is that some granted instant was later than
the current one, the select of that wait took the case of the parent context,
and the run returned the error of the parent. When the first attempt
succeeds (n = 0) the run returns nil and its calls are the factory and op
alone: no consultation and no wait, whatever the parent context. -/
theorem retries_success_after_failures (parentCtx : Context)
    (retryFuncFactory : RetryFuncFactory) (operationTimeout : Int) (op : Operation)
    (tie : Nat → Bool) (n fuel : Nat) (now : Int)
    (hfail : ∀ i, i < n → ∀ ctx t, (op i ctx t).1 ≠ none)
    (hsucc : ∀ ctx t, (op n ctx t).1 = none)
    (hgrant : ∀ j, j < n → ∀ t, (retryFuncFactory () j t).2 = none)
    (hfuel : n + 1 ≤ fuel) :
    ∃ r, operationWithRetries parentCtx retryFuncFactory operationTimeout op tie fuel now
        = some r ∧
      ((∀ j, j < n → ∀ t, (retryFuncFactory () j t).1 > t →
          selectDone parentCtx (retryFuncFactory () j t).1 (tie j) = false) →
        r.err = none ∧ r.trace.countP Call.isOp = n + 1 ∧ r.trace.countP Call.isRf = n) ∧
      ((r.err = none ∧ r.trace.countP Call.isOp = n + 1 ∧ r.trace.countP Call.isRf = n) ∨
       (∃ j t, j < n ∧ (retryFuncFactory () j t).1 > t ∧
          selectDone parentCtx (retryFuncFactory () j t).1 (tie j) = true ∧
          r.err = some parentCtx.err ∧ r.trace.countP Call.isOp = j + 1)) ∧
      (n = 0 → r.err = none ∧ r.trace = [.retryFuncFactory, .op none] ∧
        r.trace.countP Call.isRf = 0 ∧ r.trace.countP Call.isTimeAfter = 0) := by
  rcases loop_attempts_outcome parentCtx operationTimeout op (retryFuncFactory ()) tie n 0 now
      [.retryFuncFactory] (fun i hi => by simpa using hfail i hi)
      (fun j hj => by simpa using hgrant j hj) with
    ⟨now1, trace1, hrun, h1, h2, -, h4⟩ | ⟨j, t, trace2, hj, hfut, hsel, hret, k1, -⟩
  · obtain ⟨m, rfl⟩ : ∃ m, fuel = m + 1 + n := ⟨fuel - (n + 1), by omega⟩
    have hs := hsucc (WithTimeout parentCtx now1 operationTimeout) now1
    have hA : (none : Option GoError) = none ∧
        (trace1 ++ [Call.op none]).countP Call.isOp = n + 1 ∧
        (trace1 ++ [Call.op none]).countP Call.isRf = n :=
      ⟨rfl, by simp [List.countP_append, Call.isOp, h1],
        by simp [List.countP_append, Call.isRf, h2]⟩
    refine ⟨⟨none, trace1 ++ [.op none]⟩, ?_, fun _ => hA, Or.inl hA, fun h0 => ?_⟩
    · unfold operationWithRetries
      simp only []
      rw [hrun (m + 1), Nat.zero_add, operationWithRetries_loop]
      simp only [hs]
    · show (none : Option GoError) = none ∧ trace1 ++ [Call.op none] = _ ∧ _
      rw [h4 h0]
      exact ⟨rfl, rfl, rfl, rfl⟩
  · obtain ⟨m, rfl⟩ : ∃ m, fuel = m + n := ⟨fuel - n, by omega⟩
    rw [Nat.zero_add] at hfut hsel
    refine ⟨⟨some parentCtx.err, trace2⟩, ?_, fun hwait => ?_,
      Or.inr ⟨j, t, hj, hfut, hsel, rfl, ?_⟩, fun h0 => by omega⟩
    · unfold operationWithRetries
      simp only []
      exact hret m
    · have := hwait j hj t hfut
      rw [hsel] at this
      cases this
    · simpa [Call.isOp, Nat.add_comm] using k1

/-- C8, at a concrete run under a parent context with a deadline that is
still far: the second invocation succeeds. -/
theorem retries_success_after_failures_witness :
    ∃ r, operationWithRetries (deadlineAt 3000000000) (grantOnce 10) 1000 secondTimeOp
        (fun _ => false) 2 0 = some r ∧
      r.err = none ∧
      r.trace.countP Call.isOp = 1 + 1 ∧
      r.trace.countP Call.isRf = 1 := by
  obtain ⟨r, hr, hcond, -, -⟩ :=
    retries_success_after_failures (deadlineAt 3000000000) (grantOnce 10) 1000 secondTimeOp
      (fun _ => false) 1 2 0
      (fun i hi _ _ => by
        have : i = 0 := by omega
        subst this; simp [secondTimeOp])
      (fun _ _ => rfl)
      (fun j hj _ => by
        have : j = 0 := by omega
        subst this; rfl)
      (by decide)
  obtain ⟨h1, h2, h3⟩ := hcond (fun j hj t _ => by
    have : j = 0 := by omega
    subst this
    show selectDone (deadlineAt 3000000000) 10 false = false
    decide)
  exact ⟨r, hr, h1, h2, h3⟩

/-! ## Theorems: disowning a device -/

/-- C9 as stated fails: when the device reports the nil UUID as owner and the
identity of the SDK is the nil UUID too, the owner matches and Disown writes
the RESET request to the provisioning resource. -/
theorem disown_nil_owner_nil_sdk_writes :
    (deviceOwnedBy uuidNilString uuidNilString).Disown none pstatLinks
      = (none,
          [.UpdateResource
            ⟨"/oic/sec/pstat", ["oic.r.pstat"], [⟨"coaps://[fe80::1]:5684", 1⟩]⟩
            ⟨some ⟨.RESET⟩⟩]) := by
  decide

/-- C9, amended: when the device reports the nil UUID as owner and the
identity of the SDK is any other text, Disown returns nil and has no effect:
no write and no call of the error sink. -/
theorem disown_unowned_is_noop (d : Device) (ctxErr : Option GoError) (links : ResourceLinks)
    (ownership : Ownership) (sdkID : String)
    (hown : d.GetOwnership links = .ok ownership)
    (hnil : ownership.OwnerID = uuidNilString)
    (hsdk : d.GetSdkOwnerID = .ok sdkID)
    (hne : sdkID ≠ uuidNilString) :
    d.Disown ctxErr links = (none, []) := by
  have h : ownership.OwnerID ≠ sdkID := fun h => hne (h ▸ hnil)
  unfold Device.Disown
  simp only [hown, hsdk]
  rw [if_pos h, if_pos hnil]

/-- C9, amended, at a concrete device. -/
theorem disown_unowned_is_noop_witness :
    (deviceOwnedBy uuidNilString "e61c3e6b-9c54-4b81-8ce5-f9039c1d04d9").Disown none pstatLinks
      = (none, []) :=
  disown_unowned_is_noop (deviceOwnedBy uuidNilString "e61c3e6b-9c54-4b81-8ce5-f9039c1d04d9")
    none pstatLinks ⟨uuidNilString⟩ "e61c3e6b-9c54-4b81-8ce5-f9039c1d04d9" rfl rfl rfl
    (by decide)

/-- C10: when the owner the device reports differs from the identity of the
SDK and is not the nil UUID, Disown returns the error that
MakePermissionDenied builds, classified as permission-denied, and has no
effect: no write and no call of the error sink. -/
theorem disown_foreign_owner_permission_denied (d : Device) (ctxErr : Option GoError)
    (links : ResourceLinks) (ownership : Ownership) (sdkID : String)
    (hown : d.GetOwnership links = .ok ownership)
    (hsdk : d.GetSdkOwnerID = .ok sdkID)
    (hne : ownership.OwnerID ≠ sdkID)
    (hnn : ownership.OwnerID ≠ uuidNilString) :
    ∃ err, d.Disown ctxErr links = (some (MakePermissionDenied err), []) ∧
      (MakePermissionDenied err).code? = some .PermissionDenied := by
  refine ⟨disownErr (.errorString
    ("device is owned by " ++ ownership.OwnerID ++ ", not by " ++ sdkID)), ?_, rfl⟩
  unfold Device.Disown
  simp only [hown, hsdk]
  rw [if_pos hne, if_neg hnn]

/-- C10, at a concrete device owned by another identity. -/
theorem disown_foreign_owner_permission_denied_witness :
    ∃ err, (deviceOwnedBy "3f0a7c1e-52b6-4d0c-9a41-7d2f6b8e1c55"
        "e61c3e6b-9c54-4b81-8ce5-f9039c1d04d9").Disown none pstatLinks
        = (some (MakePermissionDenied err), []) ∧
      (MakePermissionDenied err).code? = some .PermissionDenied :=
  disown_foreign_owner_permission_denied
    (deviceOwnedBy "3f0a7c1e-52b6-4d0c-9a41-7d2f6b8e1c55" "e61c3e6b-9c54-4b81-8ce5-f9039c1d04d9")
    none pstatLinks ⟨"3f0a7c1e-52b6-4d0c-9a41-7d2f6b8e1c55"⟩
    "e61c3e6b-9c54-4b81-8ce5-f9039c1d04d9" rfl rfl (by decide) (by decide)

/-- When some link has the href asked for, `GetResourceLink` yields a link of
the list with that href. -/
theorem GetResourceLink_of_mem (links : ResourceLinks) (href : String)
    (h : ∃ l ∈ links, l.Href = href) :
    ∃ link ∈ links, link.Href = href ∧ GetResourceLink links href = .ok link := by
  unfold GetResourceLink
  cases hf : links.find? (fun l => l.Href == href) with
  | none =>
    obtain ⟨l, hl, hh⟩ := h
    have := List.find?_eq_none.1 hf l hl
    simp [hh] at this
  | some link =>
    refine ⟨link, List.mem_of_find?_eq_some hf, ?_, rfl⟩
    simpa using List.find?_some hf

/-- When no link has the href asked for, `GetResourceLink` yields an error. -/
theorem GetResourceLink_of_not_mem (links : ResourceLinks) (href : String)
    (h : ∀ l ∈ links, l.Href ≠ href) :
    ∃ err, GetResourceLink links href = .error err := by
  unfold GetResourceLink
  cases hf : links.find? (fun l => l.Href == href) with
  | none => exact ⟨_, rfl⟩
  | some link =>
    have h1 : link.Href = href := by simpa using List.find?_some hf
    exact absurd h1 (h link (List.mem_of_find?_eq_some hf))

/-- The endpoints that `FilterSecureEndpoints` keeps are those of a secured
scheme, in their order. -/
theorem mem_FilterSecureEndpoints (schemeOf : String → Option Scheme) (eps : List Endpoint)
    (ep : Endpoint) :
    ep ∈ FilterSecureEndpoints schemeOf eps ↔
      ep ∈ eps ∧ (schemeOf ep.URI = some .TCPSecureScheme ∨
        schemeOf ep.URI = some .UDPSecureScheme) := by
  unfold FilterSecureEndpoints
  rw [List.mem_filter]
  constructor
  · rintro ⟨h1, h2⟩
    refine ⟨h1, ?_⟩
    split at h2
    · left; assumption
    · right; assumption
    · cases h2
  · rintro ⟨h1, h2 | h2⟩
    · exact ⟨h1, by simp [h2]⟩
    · exact ⟨h1, by simp [h2]⟩

/-- The run of `Disown` once the owner matches and the provisioning link is
found: one write, then the outcome of that write. -/
theorem disown_owner_run (d : Device) (ctxErr : Option GoError) (links : ResourceLinks)
    (ownership : Ownership) (sdkID : String) (link : ResourceLink)
    (hown : d.GetOwnership links = .ok ownership)
    (hsdk : d.GetSdkOwnerID = .ok sdkID)
    (heq : ownership.OwnerID = sdkID)
    (hlink : GetResourceLink links "/oic/sec/pstat" = .ok link) :
    d.Disown ctxErr links =
      match d.UpdateResource
        ⟨link.Href, link.ResourceTypes, FilterSecureEndpoints d.schemeOf link.Endpoints⟩
        ⟨some ⟨.RESET⟩⟩ with
      | some err =>
        if connectionWasClosed ctxErr err then
          (none, [.UpdateResource
            ⟨link.Href, link.ResourceTypes, FilterSecureEndpoints d.schemeOf link.Endpoints⟩
            ⟨some ⟨.RESET⟩⟩, .errFunc (disownErr err)])
        else
          (some (MakeInternal (disownErr err)), [.UpdateResource
            ⟨link.Href, link.ResourceTypes, FilterSecureEndpoints d.schemeOf link.Endpoints⟩
            ⟨some ⟨.RESET⟩⟩])
      | none => (none, [.UpdateResource
            ⟨link.Href, link.ResourceTypes, FilterSecureEndpoints d.schemeOf link.Endpoints⟩
            ⟨some ⟨.RESET⟩⟩]) := by
  unfold Device.Disown
  simp only [hown, hsdk, hlink]
  rw [if_neg (by simpa using heq)]

/-- C11: when the owner the device reports is the identity of the SDK and the
links hold the href /oic/sec/pstat, the writes of Disown are one write, of
the RESET request, to a link of that href whose endpoints are the secured
endpoints of the link, in their order, the href and the resource types left
as they are; when that write succeeds Disown returns nil. When the links
hold no such href, Disown has no effect and returns an internal error. -/
theorem disown_owner_writes_reset (d : Device) (ctxErr : Option GoError)
    (links : ResourceLinks) (ownership : Ownership) (sdkID : String)
    (hown : d.GetOwnership links = .ok ownership)
    (hsdk : d.GetSdkOwnerID = .ok sdkID)
    (heq : ownership.OwnerID = sdkID) :
    ((∃ l ∈ links, l.Href = "/oic/sec/pstat") →
      ∃ link ∈ links, link.Href = "/oic/sec/pstat" ∧
        (d.Disown ctxErr links).2.filter Effect.isWrite
          = [.UpdateResource
              ⟨link.Href, link.ResourceTypes, FilterSecureEndpoints d.schemeOf link.Endpoints⟩
              ⟨some ⟨.RESET⟩⟩] ∧
        (∀ ep, ep ∈ FilterSecureEndpoints d.schemeOf link.Endpoints ↔
          ep ∈ link.Endpoints ∧ (d.schemeOf ep.URI = some .TCPSecureScheme ∨
            d.schemeOf ep.URI = some .UDPSecureScheme)) ∧
        (FilterSecureEndpoints d.schemeOf link.Endpoints).Sublist link.Endpoints ∧
        (d.UpdateResource
            ⟨link.Href, link.ResourceTypes, FilterSecureEndpoints d.schemeOf link.Endpoints⟩
            ⟨some ⟨.RESET⟩⟩ = none →
          (d.Disown ctxErr links).1 = none)) ∧
    ((∀ l ∈ links, l.Href ≠ "/oic/sec/pstat") →
      ∃ err, d.Disown ctxErr links = (some (MakeInternal err), []) ∧
        (MakeInternal err).code? = some .Internal) := by
  constructor
  · intro hex
    obtain ⟨link, hmem, hhref, hlink⟩ := GetResourceLink_of_mem links _ hex
    refine ⟨link, hmem, hhref, ?_, mem_FilterSecureEndpoints _ _, List.filter_sublist _, ?_⟩
    · rw [disown_owner_run d ctxErr links ownership sdkID link hown hsdk heq hlink]
      split
      · split <;> simp [Effect.isWrite]
      · simp [Effect.isWrite]
    · intro hw
      rw [disown_owner_run d ctxErr links ownership sdkID link hown hsdk heq hlink, hw]
  · intro hno
    obtain ⟨err, herr⟩ := GetResourceLink_of_not_mem links _ hno
    refine ⟨disownErr err, ?_, rfl⟩
    unfold Device.Disown
    simp only [hown, hsdk, herr]
    rw [if_neg (by simpa using heq)]

/-- C11, at a concrete device owned by the SDK, over links with one secured
and one unsecured endpoint, and over no links. -/
theorem disown_owner_writes_reset_witness :
    (∃ link ∈ pstatLinks, link.Href = "/oic/sec/pstat" ∧
      ((deviceWriting "e61c3e6b-9c54-4b81-8ce5-f9039c1d04d9" none).Disown none pstatLinks).2.filter
          Effect.isWrite
        = [.UpdateResource
            ⟨link.Href, link.ResourceTypes,
              FilterSecureEndpoints (deviceWriting "e61c3e6b-9c54-4b81-8ce5-f9039c1d04d9" none).schemeOf
                link.Endpoints⟩
            ⟨some ⟨.RESET⟩⟩]) ∧
    (∃ err, (deviceWriting "e61c3e6b-9c54-4b81-8ce5-f9039c1d04d9" none).Disown none []
      = (some (MakeInternal err), [])) := by
  have h := disown_owner_writes_reset (deviceWriting "e61c3e6b-9c54-4b81-8ce5-f9039c1d04d9" none)
    none pstatLinks ⟨"e61c3e6b-9c54-4b81-8ce5-f9039c1d04d9"⟩
    "e61c3e6b-9c54-4b81-8ce5-f9039c1d04d9" rfl rfl rfl
  have h0 := disown_owner_writes_reset (deviceWriting "e61c3e6b-9c54-4b81-8ce5-f9039c1d04d9" none)
    none [] ⟨"e61c3e6b-9c54-4b81-8ce5-f9039c1d04d9"⟩
    "e61c3e6b-9c54-4b81-8ce5-f9039c1d04d9" rfl rfl rfl
  obtain ⟨link, hm, hh, hw, -⟩ := h.1 ⟨_, List.mem_singleton.2 rfl, rfl⟩
  obtain ⟨err, he, -⟩ := h0.2 (fun l hl => by cases hl)
  exact ⟨⟨link, hm, hh, hw⟩, ⟨err, he⟩⟩

/-- C12: when the RESET write of Disown fails with the error e, Disown returns
nil and calls the error sink once, with e wrapped, if the context of the
caller is not done and e is or wraps context.Canceled; in every other case it
returns an error classified as internal and does not call the error sink. So
it returns nil exactly in the first case. -/
theorem disown_write_failure (d : Device) (ctxErr : Option GoError) (links : ResourceLinks)
    (ownership : Ownership) (sdkID : String) (link : ResourceLink) (e : GoError)
    (hown : d.GetOwnership links = .ok ownership)
    (hsdk : d.GetSdkOwnerID = .ok sdkID)
    (heq : ownership.OwnerID = sdkID)
    (hlink : GetResourceLink links "/oic/sec/pstat" = .ok link)
    (hfail : d.UpdateResource
      ⟨link.Href, link.ResourceTypes, FilterSecureEndpoints d.schemeOf link.Endpoints⟩
      ⟨some ⟨.RESET⟩⟩ = some e) :
    ((ctxErr = none ∧ e.IsCanceled = true) →
      (d.Disown ctxErr links).1 = none ∧
      (d.Disown ctxErr links).2.filter Effect.isErrFunc = [.errFunc (disownErr e)]) ∧
    (¬ (ctxErr = none ∧ e.IsCanceled = true) →
      (d.Disown ctxErr links).1 = some (MakeInternal (disownErr e)) ∧
      (MakeInternal (disownErr e)).code? = some .Internal ∧
      (d.Disown ctxErr links).2.filter Effect.isErrFunc = []) ∧
    ((d.Disown ctxErr links).1 = none ↔ (ctxErr = none ∧ e.IsCanceled = true)) := by
  rw [disown_owner_run d ctxErr links ownership sdkID link hown hsdk heq hlink, hfail]
  by_cases hc : ctxErr = none ∧ e.IsCanceled = true
  · have hcw : connectionWasClosed ctxErr e = true := by
      unfold connectionWasClosed
      rw [if_pos hc]
    simp only [hcw, if_true]
    simp [hc, Effect.isErrFunc]
  · have hcw : connectionWasClosed ctxErr e = false := by
      unfold connectionWasClosed
      rw [if_neg hc]
    simp only [hcw, Bool.false_eq_true, if_false]
    simp [hc, Effect.isErrFunc, MakeInternal, GoError.code?]

/-- C12, at a concrete device whose write fails with context.Canceled while
the context of the caller is not done. -/
theorem disown_write_failure_witness :
    ((deviceWriting "e61c3e6b-9c54-4b81-8ce5-f9039c1d04d9" (some .Canceled)).Disown none
        pstatLinks).1 = none ∧
    ((deviceWriting "e61c3e6b-9c54-4b81-8ce5-f9039c1d04d9" (some .Canceled)).Disown none
        pstatLinks).2.filter Effect.isErrFunc = [.errFunc (disownErr .Canceled)] :=
  (disown_write_failure (deviceWriting "e61c3e6b-9c54-4b81-8ce5-f9039c1d04d9" (some .Canceled))
    none pstatLinks ⟨"e61c3e6b-9c54-4b81-8ce5-f9039c1d04d9"⟩
    "e61c3e6b-9c54-4b81-8ce5-f9039c1d04d9"
    ⟨"/oic/sec/pstat", ["oic.r.pstat"],
      [⟨"coap://[fe80::1]:5683", 1⟩, ⟨"coaps://[fe80::1]:5684", 1⟩]⟩
    .Canceled rfl rfl rfl rfl rfl).1 ⟨rfl, rfl⟩

/-! ## Theorems: discovery handlers -/

/-- C13: for every discovery response, discoveryHandler.Handle closes the
connection and then invokes one callback of the caller, once: handler.Error
when the links hold no link /oic/d, or the device ID of that link is empty,
or its list of resource types is empty; otherwise handler.Handle, with the
device made of the device ID and the resource types of that link, and with
the links of the response as they came. -/
theorem discovery_handle_one_callback {Cfg : Type} (S : SchemaFns) (deviceCfg : Cfg)
    (links : ResourceLinks) :
    ((∀ l ∈ links, l.Href ≠ "/oic/d") →
      ∃ err, discoveryHandler.Handle S deviceCfg links = [.Close, .Error err]) ∧
    (∀ link, GetResourceLink links "/oic/d" = .ok link →
      (S.GetDeviceID link = "" ∨ link.ResourceTypes = []) →
      ∃ err, discoveryHandler.Handle S deviceCfg links = [.Close, .Error err]) ∧
    ((∃ l ∈ links, l.Href = "/oic/d") →
      ∃ link ∈ links, link.Href = "/oic/d" ∧
        GetResourceLink links "/oic/d" = .ok link ∧
        (S.GetDeviceID link ≠ "" → link.ResourceTypes ≠ [] →
          discoveryHandler.Handle S deviceCfg links =
            [.Close, .Handle ⟨deviceCfg, S.GetDeviceID link, link.ResourceTypes⟩ links])) ∧
    (discoveryHandler.Handle S deviceCfg links).countP DiscoveryCall.isError
      + (discoveryHandler.Handle S deviceCfg links).countP DiscoveryCall.isHandle = 1 := by
  refine ⟨?_, ?_, ?_, ?_⟩
  · intro hno
    obtain ⟨err, herr⟩ := GetResourceLink_of_not_mem links _ hno
    exact ⟨err, by simp [discoveryHandler.Handle, herr]⟩
  · intro link hlink hbad
    unfold discoveryHandler.Handle
    simp only [hlink]
    by_cases hid : S.GetDeviceID link = ""
    · exact ⟨_, by rw [if_pos hid]⟩
    · rcases hbad with h | h
      · exact absurd h hid
      · exact ⟨_, by rw [if_neg hid, if_pos (by simp [h])]⟩
  · intro hex
    obtain ⟨link, hmem, hhref, hlink⟩ := GetResourceLink_of_mem links _ hex
    refine ⟨link, hmem, hhref, hlink, fun hid hrt => ?_⟩
    unfold discoveryHandler.Handle
    simp only [hlink]
    rw [if_neg hid, if_neg (by simpa using hrt)]
    rfl
  · unfold discoveryHandler.Handle
    cases GetResourceLink links "/oic/d" with
    | error err => rfl
    | ok link =>
      simp only []
      by_cases hid : S.GetDeviceID link = ""
      · rw [if_pos hid]; rfl
      · rw [if_neg hid]
        by_cases hrt : link.ResourceTypes.length = 0
        · rw [if_pos hrt]; rfl
        · rw [if_neg hrt]; rfl

/-- C13, at concrete responses: one with a device link, one without. -/
theorem discovery_handle_one_callback_witness :
    discoveryHandler.Handle testSchema () (deviceLinksOf "dev-1")
      = [.Close, .Handle ⟨(), "dev-1", ["dev-1", "oic.wk.d"]⟩ (deviceLinksOf "dev-1")] ∧
    (∃ err, discoveryHandler.Handle testSchema () pstatLinks = [.Close, .Error err]) := by
  have h := discovery_handle_one_callback testSchema () (deviceLinksOf "dev-1")
  have h2 := discovery_handle_one_callback testSchema () pstatLinks
  refine ⟨?_, h2.1 (by decide)⟩
  obtain ⟨link, -, -, hlink, hh⟩ := h.2.2.1 ⟨_, List.mem_cons_self _ _, rfl⟩
  have hl : link = ⟨"/oic/d", ["dev-1", "oic.wk.d"], []⟩ := by
    have h3 : GetResourceLink (deviceLinksOf "dev-1") "/oic/d"
        = .ok ⟨"/oic/d", ["dev-1", "oic.wk.d"], []⟩ := rfl
    rw [h3] at hlink
    injection hlink with hlink
    exact hlink.symm
  subst hl
  exact hh (by decide) (by decide)

/-- A call of `Handle` on a handler whose flag is set changes nothing and does
not cancel. -/
theorem deviceDiscoveryHandler_Handle_of_ok (S : SchemaFns) (h : deviceDiscoveryHandler)
    (r : Response) (hok : h.ok = true) :
    deviceDiscoveryHandler.Handle S h r = (h, false) := by
  unfold deviceDiscoveryHandler.Handle
  split
  · rfl
  · split
    · rfl
    · rw [if_pos (Or.inl hok)]

/-- A call of `Handle` with a response that is not for the device of the
handler changes nothing and does not cancel. -/
theorem deviceDiscoveryHandler_Handle_of_not_isFor (S : SchemaFns) (h : deviceDiscoveryHandler)
    (r : Response) (hn : r.isFor S h.deviceID = false) :
    deviceDiscoveryHandler.Handle S h r = (h, false) := by
  unfold deviceDiscoveryHandler.Handle
  unfold Response.isFor at hn
  split
  · rfl
  · rename_i addr haddr
    split
    · rfl
    · rename_i link hlink
      rw [haddr, hlink] at hn
      rw [if_pos (Or.inr (by simpa using hn))]

/-- The first call of `Handle` with a response for the device of the handler
stores the patched links, sets the flag and cancels. -/
theorem deviceDiscoveryHandler_Handle_of_isFor (S : SchemaFns) (h : deviceDiscoveryHandler)
    (r : Response) (addr : Addr) (hok : h.ok = false) (hf : r.isFor S h.deviceID = true)
    (haddr : r.remoteAddr = .ok addr) :
    deviceDiscoveryHandler.Handle S h r
      = (⟨h.deviceID, S.PatchEndpoints r.links addr, true⟩, true) := by
  unfold deviceDiscoveryHandler.Handle
  unfold Response.isFor at hf
  rw [haddr] at hf
  simp only [haddr]
  split
  · rename_i hnone
    rw [hnone] at hf
    cases hf
  · rename_i link hlink
    rw [hlink] at hf
    have hid : S.GetDeviceID link = h.deviceID := by simpa using hf
    rw [if_neg (by simp [hok, hid])]

/-- Once the flag is set, no sequence of responses changes the handler or
cancels. -/
theorem deliver_of_ok (S : SchemaFns) (rs : List Response) :
    ∀ (h : deviceDiscoveryHandler) (n : Nat), h.ok = true →
      deviceDiscoveryHandler.deliver S (h, n) rs = (h, n) := by
  induction rs with
  | nil => intro h n _; rfl
  | cons r rest ih =>
    intro h n hok
    rw [deviceDiscoveryHandler.deliver, deviceDiscoveryHandler_Handle_of_ok S h r hok]
    exact ih h n hok

/-- A sequence of responses none of which is for the device of the handler
changes nothing and does not cancel. -/
theorem deliver_of_not_isFor (S : SchemaFns) (rs : List Response) :
    ∀ (h : deviceDiscoveryHandler) (n : Nat), (∀ r ∈ rs, r.isFor S h.deviceID = false) →
      deviceDiscoveryHandler.deliver S (h, n) rs = (h, n) := by
  induction rs with
  | nil => intro h n _; rfl
  | cons r rest ih =>
    intro h n hall
    rw [deviceDiscoveryHandler.deliver,
      deviceDiscoveryHandler_Handle_of_not_isFor S h r (hall r (List.mem_cons_self _ _))]
    exact ih h n (fun r' hr' => hall r' (List.mem_cons_of_mem _ hr'))

/-- Delivering two sequences one after the other. -/
theorem deliver_append (S : SchemaFns) (rs post : List Response) :
    ∀ st : deviceDiscoveryHandler × Nat,
      deviceDiscoveryHandler.deliver S st (rs ++ post)
        = deviceDiscoveryHandler.deliver S (deviceDiscoveryHandler.deliver S st rs) post := by
  induction rs with
  | nil => intro st; rfl
  | cons r rest ih =>
    intro st
    obtain ⟨h, n⟩ := st
    simp only [List.cons_append, deviceDiscoveryHandler.deliver]
    exact ih _

/-- C14: for every sequence of responses delivered to a new
deviceDiscoveryHandler: when no response is for the target device (its
remote address parses and its link /oic/d carries the target device ID),
ResourceLinks returns no links and false and cancel is never invoked; and
when the sequence is some responses not for the target, then a response for
it, then any responses, cancel is invoked once in all and ResourceLinks
returns the links of that response patched with its remote address, and
true, whatever comes after. -/
theorem device_discovery_single_resolution (S : SchemaFns) (deviceID : String) :
    (∀ rs : List Response, (∀ r ∈ rs, r.isFor S deviceID = false) →
      deviceDiscoveryHandler.deliver S (newDeviceDiscoveryHandler deviceID, 0) rs
        = (newDeviceDiscoveryHandler deviceID, 0) ∧
      (newDeviceDiscoveryHandler deviceID).ResourceLinks = ([], false)) ∧
    (∀ (pre post : List Response) (r : Response) (addr : Addr),
      (∀ r' ∈ pre, r'.isFor S deviceID = false) →
      r.isFor S deviceID = true → r.remoteAddr = .ok addr →
      (deviceDiscoveryHandler.deliver S (newDeviceDiscoveryHandler deviceID, 0)
          (pre ++ r :: post)).2 = 1 ∧
      (deviceDiscoveryHandler.deliver S (newDeviceDiscoveryHandler deviceID, 0)
          (pre ++ r :: post)).1.ResourceLinks = (S.PatchEndpoints r.links addr, true) ∧
      deviceDiscoveryHandler.deliver S (newDeviceDiscoveryHandler deviceID, 0)
          (pre ++ r :: post)
        = deviceDiscoveryHandler.deliver S (newDeviceDiscoveryHandler deviceID, 0)
          (pre ++ [r])) := by
  constructor
  · intro rs hall
    exact ⟨deliver_of_not_isFor S rs _ 0 hall, rfl⟩
  · intro pre post r addr hpre hf haddr
    have key : ∀ post : List Response,
        deviceDiscoveryHandler.deliver S (newDeviceDiscoveryHandler deviceID, 0)
          (pre ++ r :: post)
        = (⟨deviceID, S.PatchEndpoints r.links addr, true⟩, 1) := by
      intro post
      rw [deliver_append, deliver_of_not_isFor S pre _ 0 hpre, deviceDiscoveryHandler.deliver,
        deviceDiscoveryHandler_Handle_of_isFor S _ r addr rfl hf haddr]
      exact deliver_of_ok S post _ _ rfl
    rw [key post, key []]
    exact ⟨rfl, rfl, rfl⟩

/-- C14, at a concrete sequence: a response of another device, the response
of the target, and a duplicate of it. -/
theorem device_discovery_single_resolution_witness :
    (deviceDiscoveryHandler.deliver testSchema (newDeviceDiscoveryHandler "dev-1", 0)
        ([⟨.ok testAddr, deviceLinksOf "dev-2"⟩] ++
          ⟨.ok testAddr, deviceLinksOf "dev-1"⟩ :: [⟨.ok testAddr, deviceLinksOf "dev-1"⟩])).2
      = 1 ∧
    (deviceDiscoveryHandler.deliver testSchema (newDeviceDiscoveryHandler "dev-1", 0)
        ([⟨.ok testAddr, deviceLinksOf "dev-2"⟩] ++
          ⟨.ok testAddr, deviceLinksOf "dev-1"⟩ ::
            [⟨.ok testAddr, deviceLinksOf "dev-1"⟩])).1.ResourceLinks
      = (testSchema.PatchEndpoints (deviceLinksOf "dev-1") testAddr, true) :=
  have h := (device_discovery_single_resolution testSchema "dev-1").2
    [⟨.ok testAddr, deviceLinksOf "dev-2"⟩] [⟨.ok testAddr, deviceLinksOf "dev-1"⟩]
    ⟨.ok testAddr, deviceLinksOf "dev-1"⟩ testAddr
    (fun r' hr' => by
      have : r' = ⟨.ok testAddr, deviceLinksOf "dev-2"⟩ := List.mem_singleton.1 hr'
      subst this
      decide)
    (by decide) rfl
  ⟨h.1, h.2.1⟩

/-! ## Theorems: the connection pool -/

/-- C15 as stated fails: a first connection is dialed for an address and
stored, a second connection dialed for the same address takes its place, and
the session-end observer registered for the first connection then removes the
entry, which holds the second, newer connection. -/
theorem closeSession_removes_newer_connection :
    (createUDPConnection (fun _ => .ok ⟨1⟩) emptyPool testAddr).2 testAddr = some ⟨1⟩ ∧
    (createUDPConnection (fun _ => .ok ⟨2⟩)
      (createUDPConnection (fun _ => .ok ⟨1⟩) emptyPool testAddr).2 testAddr).2 testAddr
      = some ⟨2⟩ ∧
    createUDPConnection_closeSession testAddr none
      (createUDPConnection (fun _ => .ok ⟨2⟩)
        (createUDPConnection (fun _ => .ok ⟨1⟩) emptyPool testAddr).2 testAddr).2 testAddr
      = none := by
  decide

/-- C15, amended: a successful createUDPConnection for the address a stores
the dialed connection under a and leaves every other entry as it is, a failed
dial leaves the pool as it is; and the session-end observer it registers
deletes the entry stored under a when it fires, whichever connection that
entry holds then: afterwards the pool holds no entry for a, and the entry of
every other address is as before. -/
theorem createUDPConnection_pool_entries (dial : Addr → Except GoError ClientConn) (p : Pool)
    (a : Addr) :
    (∀ c, dial a = .ok c →
      createUDPConnection dial p a = (none, p.Put a c) ∧
      (createUDPConnection dial p a).2 a = some c ∧
      ∀ b, b ≠ a → (createUDPConnection dial p a).2 b = p b) ∧
    (∀ err, dial a = .error err → createUDPConnection dial p a = (some err, p)) ∧
    (∀ (q : Pool) (e : Option GoError),
      createUDPConnection_closeSession a e q a = none ∧
      ∀ b, b ≠ a → createUDPConnection_closeSession a e q b = q b) := by
  refine ⟨fun c hc => ?_, fun err he => ?_, fun q e => ?_⟩
  · have h : createUDPConnection dial p a = (none, p.Put a c) := by
      unfold createUDPConnection
      rw [hc]
    rw [h]
    refine ⟨rfl, ?_, fun b hb => ?_⟩
    · simp [Pool.Put]
    · simp [Pool.Put, hb]
  · unfold createUDPConnection
    rw [he]
  · refine ⟨?_, fun b hb => ?_⟩
    · simp [createUDPConnection_closeSession, Pool.Delete]
    · simp [createUDPConnection_closeSession, Pool.Delete, hb]

/-- C15, amended, at a concrete pool: the dialed connection is stored, and the
observer empties its address. -/
theorem createUDPConnection_pool_entries_witness :
    (createUDPConnection (fun _ => .ok ⟨1⟩) emptyPool testAddr).2 testAddr = some ⟨1⟩ ∧
    createUDPConnection_closeSession testAddr none
      (createUDPConnection (fun _ => .ok ⟨1⟩) emptyPool testAddr).2 testAddr = none :=
  ⟨((createUDPConnection_pool_entries (fun _ => .ok ⟨1⟩) emptyPool testAddr).1 ⟨1⟩ rfl).2.1,
   ((createUDPConnection_pool_entries (fun _ => .ok ⟨1⟩) emptyPool testAddr).2.2 _ none).1⟩

/-! ## Theorems: device links and the best connection -/

/-- The first loop of `GetDeviceLinks` from any value of `device`: the result
is that value when no element has the ID asked for, and has that ID when some
element has it. -/
theorem GetDeviceLinks_select_foldl (deviceID : String) (devices : List DeviceLinks) :
    ∀ device : DeviceLinks,
      ((∀ d ∈ devices, d.ID ≠ deviceID) →
        devices.foldl (fun device d => if d.ID = deviceID then d else device) device = device) ∧
      ((∃ d ∈ devices, d.ID = deviceID) →
        (devices.foldl (fun device d => if d.ID = deviceID then d else device) device).ID
          = deviceID) := by
  induction devices with
  | nil =>
    intro device
    exact ⟨fun _ => rfl, fun ⟨d, hd, _⟩ => by cases hd⟩
  | cons x rest ih =>
    intro device
    rw [List.foldl_cons]
    constructor
    · intro hall
      rw [if_neg (hall x (List.mem_cons_self _ _))]
      exact (ih device).1 (fun d hd => hall d (List.mem_cons_of_mem _ hd))
    · intro hex
      by_cases hrest : ∃ d ∈ rest, d.ID = deviceID
      · exact (ih _).2 hrest
      · have hall : ∀ d ∈ rest, d.ID ≠ deviceID := fun d hd h => hrest ⟨d, hd, h⟩
        rw [(ih _).1 hall]
        obtain ⟨d, hd, hid⟩ := hex
        rcases List.mem_cons.1 hd with h | h
        · subst h
          rw [if_pos hid]
          exact hid
        · exact absurd hid (hall d h)

/-- For a device ID that is not the empty text, `GetDeviceLinks` returns the
error not found when no element of the response has that ID, so a nil error
means that some element has it. -/
theorem GetDeviceLinks_not_found_of_ne_empty (S : SchemaFns) (devices : List DeviceLinks)
    (remoteAddr : Except GoError Addr) (deviceID : String) (hne : deviceID ≠ "")
    (hall : ∀ d ∈ devices, d.ID ≠ deviceID) :
    (CoapClient_GetDeviceLinks S (.ok devices) remoteAddr deviceID).2
      = some (.errorString "cannot get device links: not found") := by
  unfold CoapClient_GetDeviceLinks GetDeviceLinks_select
  simp only [(GetDeviceLinks_select_foldl deviceID devices ⟨"", []⟩).1 hall]
  rw [if_pos (fun h => hne h.symm)]

/-- C16, at the failing input: the device ID asked for is the empty text and
no element of the response has an empty ID (the response is empty, or holds
one device of another ID); GetDeviceLinks returns the zero value and a nil
error, not the error not found. -/
theorem getDeviceLinks_empty_id_returns_nil :
    CoapClient_GetDeviceLinks testSchema (.ok []) (.ok testAddr) "" = (⟨"", []⟩, none) ∧
    CoapClient_GetDeviceLinks testSchema (.ok [⟨"dev-1", deviceLinksOf "dev-1"⟩])
      (.ok testAddr) "" = (⟨"", []⟩, none) := by
  decide

/-- C17, at the failing input: the entries of the device are a connection
under a key that parses to an unsecured address and, after it in the
iteration, a connection under a key that does not parse; findBestClient
returns the first connection without error, together with the address that
the failed parse of the second key left in the variable, which is not the
address of the first key. -/
theorem findBestClient_address_of_other_entry :
    findBestClient testSchema
        [("coap://10.0.0.1:5683", ⟨1⟩), ("not an endpoint", ⟨2⟩)]
      = (⟨"", "", 0⟩, some ⟨1⟩, none) ∧
    testSchema.GetAddr "coap://10.0.0.1:5683" = (⟨"coap", "10.0.0.1", 5683⟩, none) ∧
    (testSchema.GetAddr "not an endpoint").2 ≠ none := by
  decide

end Sdk
